import Mathlib

/-!
# Verification of the Kiro Calendar Assistant command-interpretation pipeline

This file gives a shallow embedding, in Lean 4, of the NLP command parsing
pipeline of the Kiro Calendar Assistant repository:

* `src/utils/dateHelpers.ts` — calendar arithmetic, recurrence expansion,
* `src/utils/cache.ts`       — the in-memory TTL cache,
* `src/services/nlpService.ts` — intent detection, entity extraction, the
  local fallback parser and the `parseCommand` facade.

JavaScript `Date` objects are modelled as epoch milliseconds (`Int`) in a
DST-free local time zone; civil (year/month/day) conversions follow the
standard proleptic-Gregorian day-count algorithm, which is what the
JavaScript `Date` getters and setters compute.  JavaScript `number` values
that flow through the embedded code are integers and are modelled as `Int`
(confidences, which are decimal constants, are modelled as `ℚ`).
Loops of the source are modelled with an explicit fuel parameter; all
theorems about loop results hold for every fuel value, and concrete
evaluations use a fuel that is large enough for the loop to finish exactly
as in the source.
-/

/- A JS `Date` is modelled as its epoch milliseconds, a plain `Int`, in a
DST-free local time zone. -/

def msPerSecond : Int := 1000
def msPerMinute : Int := 60000
def msPerHour : Int := 3600000
def msPerDay : Int := 86400000

/-- Day number (days since 1970-01-01) of an instant. -/
def dayOf (t : Int) : Int := t / msPerDay

/-- Milliseconds since local midnight of an instant. -/
def todOf (t : Int) : Int := t % msPerDay

/-- JS `Date.prototype.getDay`: day of week, 0 = Sunday (1970-01-01 was a Thursday). -/
def getDay (t : Int) : Int := (dayOf t + 4) % 7

/-- 400-year era of a day number (Hinnant's `civil_from_days`). -/
def eraOf (z : Int) : Int := (z + 719468) / 146097

/-- Day of era, in `[0, 146097)`. -/
def doeOf (z : Int) : Int := z + 719468 - eraOf z * 146097

/-- Year of era, in `[0, 400)`, extracted from a day of era. -/
def yoeOfDoe (doe : Int) : Int :=
  (doe - doe / 1460 + doe / 36524 - doe / 146096) / 365

/-- First day (within the era) of a year of era, in the March-based calendar. -/
def yearStartOfYoe (yoe : Int) : Int :=
  365 * yoe + yoe / 4 - yoe / 100

/-- March-based month (0 = March … 11 = February) from a day of year. -/
def mpOfDoy (doy : Int) : Int := (5 * doy + 2) / 153

/-- First day of year of a March-based month. -/
def moff (mp : Int) : Int := (153 * mp + 2) / 5

/-- Civil date (year, month 1–12, day 1–31) from a day number
(Howard Hinnant's `civil_from_days` algorithm, the standard proleptic
Gregorian conversion used to model the JS `Date` field getters). -/
def civilFromDays (z : Int) : Int × Int × Int :=
  let era := eraOf z
  let doe := doeOf z
  let yoe := yoeOfDoe doe
  let doy := doe - yearStartOfYoe yoe
  let mp := mpOfDoy doy
  let d := doy - moff mp + 1
  let m := mp + (if mp < 10 then 3 else -9)
  (yoe + era * 400 + (if m ≤ 2 then 1 else 0), m, d)

/-- Day number from a civil date (Hinnant's `days_from_civil`); the month
and day arguments may be out of range, which performs exactly the field
normalization JS `Date` setters perform. -/
def daysFromCivil (y m d : Int) : Int :=
  let y' := y - (if m ≤ 2 then 1 else 0)
  let era := y' / 400
  let yoe := y' - era * 400
  let mp := m + (if 2 < m then -3 else 9)
  era * 146097 + (yearStartOfYoe yoe + (moff mp + d - 1)) - 719468

/-- JS `getFullYear` (local). -/
def jsGetFullYear (t : Int) : Int := (civilFromDays (dayOf t)).1

/-- JS `getMonth` (local, 0-based). -/
def jsGetMonth (t : Int) : Int := (civilFromDays (dayOf t)).2.1 - 1

/-- JS `getDate` (local, day of month 1–31). -/
def jsGetDate (t : Int) : Int := (civilFromDays (dayOf t)).2.2

/-- JS `setHours(h, mi, s, ms)`: same civil day, new time of day
(out-of-range components roll over into the day, as in JS). -/
def jsSetHours (t : Int) (h mi s ms : Int) : Int :=
  dayOf t * msPerDay + h * msPerHour + mi * msPerMinute + s * msPerSecond + ms

/-- JS `setDate(d)`: move to day `d` of the current civil month, keeping the
time of day; out-of-range `d` rolls over into adjacent months. -/
def jsSetDate (t : Int) (d : Int) : Int :=
  let c := civilFromDays (dayOf t)
  (daysFromCivil c.1 c.2.1 1 + (d - 1)) * msPerDay + todOf t

/-- JS `setMonth(n)`: keep the year/day-of-month fields, set the (0-based)
month to `n` and renormalize, keeping the time of day. -/
def jsSetMonth (t : Int) (n : Int) : Int :=
  let c := civilFromDays (dayOf t)
  (daysFromCivil (c.1 + n / 12) (n % 12 + 1) 1 + (c.2.2 - 1)) * msPerDay
    + todOf t

/-- JS `setFullYear(y)`: keep month/day fields, set the year and renormalize. -/
def jsSetFullYear (t : Int) (y : Int) : Int :=
  let c := civilFromDays (dayOf t)
  (daysFromCivil y c.2.1 1 + (c.2.2 - 1)) * msPerDay + todOf t

/-- JS `new Date(y, monthIndex, d, h, mi, s, ms)` with the constructor's
normalization of every component; a year in 0–99 means 1900+year, as in JS. -/
def mkDate (y monthIndex d h mi s ms : Int) : Int :=
  let yy := if 0 ≤ y ∧ y ≤ 99 then 1900 + y else y
  (daysFromCivil (yy + monthIndex / 12) (monthIndex % 12 + 1) 1
      + (d - 1)) * msPerDay
    + h * msPerHour + mi * msPerMinute + s * msPerSecond + ms

/-- The units accepted by `addTime` in `dateHelpers.ts`. -/
inductive TimeUnit where
  | minutes | hours | days | weeks | months | years
deriving DecidableEq, Repr

/-- `dateHelpers.addTime`: shift a date by an amount of a calendar unit using
the JS `Date` setter the source uses for that unit. -/
def addTime (date : Int) (amount : Int) : TimeUnit → Int
  | .minutes => date + amount * msPerMinute
  | .hours => date + amount * msPerHour
  | .days => jsSetDate date (jsGetDate date + amount)
  | .weeks => jsSetDate date (jsGetDate date + amount * 7)
  | .months => jsSetMonth date (jsGetMonth date + amount)
  | .years => jsSetFullYear date (jsGetFullYear date + amount)

/-! ## The in-memory TTL cache (`src/utils/cache.ts`) -/

/-- One cache entry: the cached value, its creation instant, its TTL in ms. -/
structure CacheEntry (α : Type) where
  data : α
  timestamp : Int
  ttl : Int
deriving DecidableEq, Repr

/-- The `MemoryCache` map, modelled as an association list with
insert-replaces-binding semantics (a JS `Map`). -/
abbrev MemoryCache (α : Type) := List (String × CacheEntry α)

def cacheEmpty (α : Type) : MemoryCache α := []

def cacheEraseKey {α : Type} (c : MemoryCache α) (key : String) : MemoryCache α :=
  c.filter (fun kv => kv.1 ≠ key)

def cacheLookup {α : Type} (c : MemoryCache α) (key : String) : Option (CacheEntry α) :=
  match c with
  | [] => none
  | kv :: rest => if kv.1 = key then some kv.2 else cacheLookup rest key

/-- JS `a || b` on an optional number: `undefined` and `0` are falsy. -/
def jsOrInt (a : Option Int) (b : Int) : Int :=
  match a with
  | some n => if n = 0 then b else n
  | none => b

/-- Default cache TTL seconds (`config.cache.ttl`, `CACHE_TTL` default 3600). -/
def configCacheTtl : Int := 3600

/-- `MemoryCache.get`: absent or expired keys yield `undefined`; an expired
entry is deleted on read.  Returns the value and the possibly updated map. -/
def cacheGet {α : Type} (c : MemoryCache α) (key : String) (now : Int) :
    Option α × MemoryCache α :=
  match cacheLookup c key with
  | none => (none, c)
  | some e =>
    if e.timestamp + e.ttl < now then (none, cacheEraseKey c key)
    else (some e.data, c)

/-- `MemoryCache.set`: store a value with TTL in seconds (`ttl || config.cache.ttl`). -/
def cacheSet {α : Type} (c : MemoryCache α) (key : String) (value : α)
    (ttl : Option Int) (now : Int) : MemoryCache α :=
  (key, ⟨value, now, jsOrInt ttl configCacheTtl * 1000⟩) :: cacheEraseKey c key

/-! ## Recurrence data model and expansion (`src/utils/dateHelpers.ts`) -/

inductive RecurrenceFrequency where
  | DAILY | WEEKLY | MONTHLY | YEARLY
deriving DecidableEq, Repr

inductive CommandIntent where
  | CREATE_EVENT | UPDATE_EVENT | DELETE_EVENT | LIST_EVENTS | QUERY_SCHEDULE
  | ADD_CONTACT | QUERY_CONTACT | SET_REMINDER | FIND_TIME | FIND_FREE_TIME
  | ADD_ATTENDEE | CHECK_CONFLICTS | UNKNOWN
deriving DecidableEq, Repr

inductive ReminderType where
  | EMAIL | PUSH | SMS
deriving DecidableEq, Repr

/-- `RecurringPattern` of `src/types/index.ts`; at run time `frequency`
carries a `RecurrenceFrequency` enum member and `daysOfWeek` carries the
numeric weekday indices the NLP extractor produces. -/
structure RecurringPattern where
  frequency : RecurrenceFrequency
  interval : Option Int
  daysOfWeek : Option (List Int)
  dayOfMonth : Option Int
  endDate : Option Int
  occurrences : Option Int
deriving DecidableEq, Repr

/-- `pattern.interval || 1` (so `undefined` and `0` both mean `1`). -/
def intervalOr1 (p : RecurringPattern) : Int := jsOrInt p.interval 1

/-- `pattern.occurrences && occurrenceCount >= pattern.occurrences`
(`0` is falsy, so an occurrences value of `0` never triggers the cap). -/
def occCapReached (occ : Option Int) (count : Nat) : Bool :=
  match occ with
  | some n => !(n == 0) && decide (n ≤ (count : Int))
  | none => false

/-- `pattern.endDate && d > pattern.endDate` (a `Date` object is always truthy). -/
def endDateBefore (p : RecurringPattern) (d : Int) : Bool :=
  match p.endDate with
  | some e => decide (e < d)
  | none => false

/-- The weekly-with-`daysOfWeek` advance of `getNextOccurrence`: add one day
up to seven times, stopping at the first day whose weekday is listed. -/
def findNextWeekdayGo (days : List Int) : Nat → Int → Option Int
  | 0, _ => none
  | k + 1, c =>
    let c' := addTime c 1 .days
    if days.contains (getDay c') then some c' else findNextWeekdayGo days k c'

/-- One step of the `getNextOccurrence` frequency switch; `none` means the
weekly day-of-week scan found no listed day within seven days and the
function returns `null`. -/
def advanceOccurrence (p : RecurringPattern) (current : Int) : Option Int :=
  match p.frequency with
  | .DAILY => some (addTime current (intervalOr1 p) .days)
  | .WEEKLY =>
    match p.daysOfWeek with
    | some days =>
      if 0 < days.length then findNextWeekdayGo days 7 current
      else some (addTime current (intervalOr1 p * 7) .days)
    | none => some (addTime current (intervalOr1 p * 7) .days)
  | .MONTHLY =>
    match p.dayOfMonth with
    | some dom =>
      if dom = 0 then some (addTime current (intervalOr1 p) .months)
      else some (jsSetDate (jsSetMonth current (jsGetMonth current + intervalOr1 p)) dom)
    | none => some (addTime current (intervalOr1 p) .months)
  | .YEARLY => some (addTime current (intervalOr1 p) .years)

/-- The `while` loop of `getNextOccurrence`, with fuel. -/
def getNextOccurrenceGo (p : RecurringPattern) (afterDate : Int) :
    Nat → Int → Nat → Option Int
  | 0, _, _ => none
  | fuel + 1, current, count =>
    if current ≤ afterDate ∨ count = 0 then
      if occCapReached p.occurrences count then none
      else
        match advanceOccurrence p current with
        | none => none
        | some next =>
          if endDateBefore p next then none
          else if afterDate < next then some next
          else getNextOccurrenceGo p afterDate fuel next (count + 1)
    else none

/-- `dateHelpers.getNextOccurrence`. -/
def getNextOccurrence (fuel : Nat) (startDate : Int) (p : RecurringPattern)
    (afterDate : Int) : Option Int :=
  if endDateBefore p afterDate then none
  else getNextOccurrenceGo p afterDate fuel startDate 0

/-- The `while` loop of `getOccurrencesInRange`, with fuel. -/
def getOccurrencesGo (p : RecurringPattern) (rangeStart rangeEnd : Int)
    (innerFuel : Nat) : Nat → Int → Nat → List Int
  | 0, _, _ => []
  | fuel + 1, current, count =>
    if current ≤ rangeEnd then
      if occCapReached p.occurrences count then []
      else if endDateBefore p current then []
      else
        let pushed := if rangeStart ≤ current ∧ current ≤ rangeEnd then [current] else []
        match getNextOccurrence innerFuel current p current with
        | none => pushed
        | some next =>
          if next ≤ current then pushed
          else pushed ++ getOccurrencesGo p rangeStart rangeEnd innerFuel fuel next (count + 1)
    else []

/-- `dateHelpers.getOccurrencesInRange`. -/
def getOccurrencesInRange (fuel : Nat) (startDate : Int) (p : RecurringPattern)
    (rangeStart rangeEnd : Int) : List Int :=
  if rangeEnd < startDate then []
  else if (match p.endDate with | some e => decide (e < rangeStart) | none => false) then []
  else
    let current :=
      if startDate < rangeStart then
        (getNextOccurrence fuel startDate p rangeStart).getD startDate
      else startDate
    getOccurrencesGo p rangeStart rangeEnd fuel fuel current 0

/-- The pattern interval, when present, is nonnegative (every producer in the
repository parses it from a digit string). -/
def intervalNonneg (p : RecurringPattern) : Bool :=
  match p.interval with
  | some n => decide (0 ≤ n)
  | none => true

/-- The pattern day-of-month, when present, is nonnegative. -/
def dayOfMonthNonneg (p : RecurringPattern) : Bool :=
  match p.dayOfMonth with
  | some n => decide (0 ≤ n)
  | none => true

/-! ## Extra definitions for the calendar correctness development -/

/-- One past the last day (within the era) of a year of era. -/
def yearEndOfYoe (yoe : Int) : Int :=
  if yoe = 399 then 146097 else yearStartOfYoe (yoe + 1)

/-- Year of era of a day number. -/
def zYoe (z : Int) : Int := yoeOfDoe (doeOf z)

/-- Absolute (March-based) year of a day number. -/
def zW (z : Int) : Int := zYoe z + eraOf z * 400

/-- Day of (March-based) year of a day number. -/
def zDoy (z : Int) : Int := doeOf z - yearStartOfYoe (zYoe z)

/-- March-based month of a day number. -/
def zMp (z : Int) : Int := mpOfDoy (zDoy z)

/-- Civil month (1–12) of a day number. -/
def zM (z : Int) : Int := zMp z + (if zMp z < 10 then 3 else -9)

/-- First day number of the March-based year `w`. -/
def yearContrib (w : Int) : Int := w / 400 * 146097 + yearStartOfYoe (w % 400)

/-- First day number of the month with linear index `t` (12·year + month−1). -/
def monthStartDays (t : Int) : Int := daysFromCivil (t / 12) (t % 12 + 1) 1

/-- Linear month index of the civil month containing a day number. -/
def monthIdx (z : Int) : Int := 12 * (civilFromDays z).1 + (civilFromDays z).2.1 - 1

/-! ## A small regular-expression engine

Model of the JavaScript `RegExp` features the NLP service uses: character
classes, alternation (left-first), greedy and lazy quantifiers, optional
groups, capturing groups (with the ECMAScript rule that the inner captures of a quantified atom reset at each repetition and keep the value of the last
iteration), word boundaries `\b`, the end anchor `$`, case-insensitive
literals, `match`, `test`, `matchAll`/global `exec`, global `replace` by the
empty string, and `split`.  The matcher returns the list of all matches of a
pattern at a position in JS priority order, so its head is exactly the match
JS would produce; a fuel argument bounds star unrolling and, because every
quantified atom of the patterns below consumes at least one character per
repetition, a fuel of the input length plus one never runs out. -/

def isWordChar (c : Char) : Bool :=
  (c.isUpper || c.isLower) || c.isDigit || c == '_'

/-- JS `\s` restricted to ASCII whitespace (the inputs considered are ASCII). -/
def isSpaceChar (c : Char) : Bool :=
  c == ' ' || c == '\t' || c == '\n' || c == '\r' ||
    c == Char.ofNat 11 || c == Char.ofNat 12

/-- The apostrophe character. -/
def apos : Char := Char.ofNat 39

inductive RE where
  | eps : RE
  | cls : (Char → Bool) → RE
  | cat : RE → RE → RE
  | alt : RE → RE → RE
  | star : RE → RE
  | starL : RE → RE
  | opt : RE → RE
  | group : Nat → RE → RE
  | wb : RE
  | eol : RE

/-- Capture slots; index `i` holds capture group `i + 1`. -/
abbrev Caps := List (Option (List Char))

def capsInit (n : Nat) : Caps := List.replicate n none

def capsSet (cp : Caps) (i : Nat) (v : Option (List Char)) : Caps :=
  cp.set (i - 1) v

def capsGet (cp : Caps) (i : Nat) : Option (List Char) :=
  (cp.getD (i - 1) none)

/-- Indices of the capture groups inside a pattern. -/
def groupsOf : RE → List Nat
  | .eps => []
  | .cls _ => []
  | .wb => []
  | .eol => []
  | .cat a b => groupsOf a ++ groupsOf b
  | .alt a b => groupsOf a ++ groupsOf b
  | .star a => groupsOf a
  | .starL a => groupsOf a
  | .opt a => groupsOf a
  | .group i a => i :: groupsOf a

def resetCaps (gs : List Nat) (cp : Caps) : Caps :=
  gs.foldl (fun c i => capsSet c i none) cp

def isWordBoundary (prev : Option Char) (s : List Char) : Bool :=
  (match prev with | some c => isWordChar c | none => false)
    != (match s with | c :: _ => isWordChar c | [] => false)

/-- A size measure used only to compute an ample fuel for the matcher. -/
def reSize : RE → Nat
  | .eps => 1
  | .cls _ => 1
  | .wb => 1
  | .eol => 1
  | .cat a b => reSize a + reSize b + 1
  | .alt a b => reSize a + reSize b + 1
  | .star a => reSize a + 1
  | .starL a => reSize a + 1
  | .opt a => reSize a + 1
  | .group _ a => reSize a + 1

/-- All ways a pattern can match a prefix of `s`, in JS priority order
(alternation left-first, greedy quantifiers longest-first, lazy shortest-
first); each result is the character before the remaining input, the
remaining input, and the captures.  The fuel bounds the recursion depth;
since a quantifier iterates only when its body consumed a character, a depth
of `(reSize re + 2) * (s.length + 2)` can never be reached, so the
out-of-fuel branch is dead for the fuel the wrappers below pass. -/
def mrun : Nat → RE → Option Char → List Char → Caps →
    List (Option Char × List Char × Caps)
  | 0, _, _, _, _ => []
  | fuel + 1, re, prev, s, cp =>
    match re with
    | .eps => [(prev, s, cp)]
    | .cls p =>
      match s with
      | [] => []
      | c :: t => if p c then [(some c, t, cp)] else []
    | .cat a b =>
      (mrun fuel a prev s cp).flatMap fun r => mrun fuel b r.1 r.2.1 r.2.2
    | .alt a b => mrun fuel a prev s cp ++ mrun fuel b prev s cp
    | .opt a => mrun fuel a prev s cp ++ [(prev, s, cp)]
    | .group i a =>
      (mrun fuel a prev s cp).map fun r =>
        (r.1, r.2.1, capsSet r.2.2 i (some (s.take (s.length - r.2.1.length))))
    | .wb => if isWordBoundary prev s then [(prev, s, cp)] else []
    | .eol => if s.isEmpty then [(prev, s, cp)] else []
    | .star a =>
      ((mrun fuel a prev s (resetCaps (groupsOf a) cp)).flatMap fun r =>
        if r.2.1.length < s.length then mrun fuel (.star a) r.1 r.2.1 r.2.2 else [])
        ++ [(prev, s, cp)]
    | .starL a =>
      (prev, s, cp) ::
        ((mrun fuel a prev s (resetCaps (groupsOf a) cp)).flatMap fun r =>
          if r.2.1.length < s.length then mrun fuel (.starL a) r.1 r.2.1 r.2.2 else [])

/-- One regex match: start index, matched text, captures. -/
structure RMatch where
  start : Nat
  matched : List Char
  caps : Caps
deriving DecidableEq, Repr

def prevAt (all : List Char) (p : Nat) : Option Char :=
  if p = 0 then none else all.getD (p - 1) ' ' |> some

/-- Try to match anchored at position `p`; JS picks the head of the
priority-ordered match list. -/
def tryMatchAt (re : RE) (ng : Nat) (all : List Char) (p : Nat) :
    Option (List Char × Caps) :=
  let rest := all.drop p
  (mrun ((reSize re + 2) * (rest.length + 2)) re (prevAt all p) rest
      (capsInit ng)).head?.map
    fun r => (rest.take (rest.length - r.2.1.length), r.2.2)

def searchFrom (re : RE) (ng : Nat) (all : List Char) :
    Nat → Nat → Option RMatch
  | 0, _ => none
  | fuel + 1, p =>
    match tryMatchAt re ng all p with
    | some (m, cp) => some ⟨p, m, cp⟩
    | none => if p < all.length then searchFrom re ng all fuel (p + 1) else none

/-- JS `string.match(re)` without the global flag: the leftmost match. -/
def reFind (re : RE) (ng : Nat) (s : List Char) : Option RMatch :=
  searchFrom re ng s (s.length + 1) 0

/-- JS `re.test(string)`. -/
def reTest (re : RE) (ng : Nat) (s : List Char) : Bool := (reFind re ng s).isSome

/-- JS `string.matchAll(re)` / a global `exec` loop; none of the patterns
used can match the empty string, but the JS rule of advancing `lastIndex` by
one on an empty match is modelled anyway. -/
def matchAllFrom (re : RE) (ng : Nat) (all : List Char) :
    Nat → Nat → List RMatch
  | 0, _ => []
  | fuel + 1, p =>
    match searchFrom re ng all (all.length + 1) p with
    | none => []
    | some m =>
      m :: matchAllFrom re ng all fuel
        (m.start + (if m.matched.length = 0 then 1 else m.matched.length))

def reMatchAll (re : RE) (ng : Nat) (s : List Char) : List RMatch :=
  matchAllFrom re ng s (s.length + 2) 0

/-- JS global replace by the empty string, for patterns that cannot match the
empty string. -/
def reStripFrom (re : RE) (ng : Nat) (all : List Char) :
    Nat → Nat → List Char
  | 0, p => all.drop p
  | fuel + 1, p =>
    match searchFrom re ng all (all.length + 1) p with
    | none => all.drop p
    | some m =>
      (all.drop p).take (m.start - p) ++
        reStripFrom re ng all fuel
          (m.start + (if m.matched.length = 0 then 1 else m.matched.length))

def reStripAll (re : RE) (ng : Nat) (s : List Char) : List Char :=
  reStripFrom re ng s (s.length + 2) 0

def splitByMatches (all : List Char) : Nat → List RMatch → List (List Char)
  | p, [] => [all.drop p]
  | p, m :: rest =>
    (all.drop p).take (m.start - p) ::
      splitByMatches all (m.start + m.matched.length) rest

/-- JS `string.split(re)` for patterns that cannot match the empty string. -/
def reSplit (re : RE) (ng : Nat) (s : List Char) : List (List Char) :=
  splitByMatches s 0 (reMatchAll re ng s)

/-! ### Pattern combinators -/

def rchar (c : Char) : RE := .cls (fun x => x == c)

def rcharCI (c : Char) : RE := .cls (fun x => x.toLower == c.toLower)

def rseq (l : List RE) : RE := l.foldr .cat .eps

def rstr (s : String) : RE := rseq (s.data.map rchar)

def rstrCI (s : String) : RE := rseq (s.data.map rcharCI)

def ralts : List RE → RE
  | [] => .cls (fun _ => false)
  | [r] => r
  | r :: rs => .alt r (ralts rs)

def digit : RE := .cls Char.isDigit

def rplus (r : RE) : RE := .cat r (.star r)

def rplusL (r : RE) : RE := .cat r (.starL r)

def sp0 : RE := .star (.cls isSpaceChar)

def sp1 : RE := rplus (.cls isSpaceChar)

/-- JS `.` (anything but a line terminator). -/
def dotAny : RE := .cls (fun c => !(c == '\n' || c == '\r'))

/-- `[A-Z]` or `[a-z]` under the `/i` flag: any ASCII letter. -/
def letter : RE := .cls (fun c => c.isUpper || c.isLower)

def d12 : RE := .cat digit (.opt digit)

def d2 : RE := .cat digit digit

/-! ### String helpers -/

def listStartsWith : List Char → List Char → Bool
  | _, [] => true
  | [], _ :: _ => false
  | a :: as, b :: bs => a == b && listStartsWith as bs

/-- JS `string.includes(sub)` (case-sensitive). -/
def strHasSub (sub : List Char) : List Char → Bool
  | [] => sub.isEmpty
  | c :: t => listStartsWith (c :: t) sub || strHasSub sub t

/-- JS `string.trim()` on a character list. -/
def trimChars (l : List Char) : List Char :=
  ((l.dropWhile isSpaceChar).reverse.dropWhile isSpaceChar).reverse

/-- JS `string.toLowerCase()` (ASCII). -/
def jsToLower (s : String) : String := ⟨s.data.map Char.toLower⟩

/-- JS `string.trim()`. -/
def jsTrim (s : String) : String := ⟨trimChars s.data⟩

/-- JS `parseInt` on an all-digit capture. -/
def digitsToInt (l : List Char) : Int :=
  l.foldl (fun acc c => acc * 10 + ((c.toNat - 48 : Nat) : Int)) 0

/-- JS `parseFloat` on a capture matching `\d+\.?\d*`.  When such a capture is
reached by the duration scan its fractional part is always empty (a nonempty
fractional part would have made the earlier integer-hours pattern match at
the digits after the dot), so taking the leading digit run is exact. -/
def parseFloatDigits (l : List Char) : Int :=
  digitsToInt (l.takeWhile Char.isDigit)

/-- First-occurrence-preserving deduplication (a JS `Set` spread). -/
def dedupFirst (l : List String) : List String :=
  l.foldl (fun acc s => if acc.contains s then acc else acc ++ [s]) []

def dedupFirstInt (l : List Int) : List Int :=
  l.foldl (fun acc s => if acc.contains s then acc else acc ++ [s]) []

def insertSorted (x : Int) : List Int → List Int
  | [] => [x]
  | y :: ys => if x ≤ y then x :: y :: ys else y :: insertSorted x ys

/-- Ascending sort; JS `Array.sort()` compares stringwise, which agrees with
numeric order on the single-digit weekday indices it is applied to. -/
def sortInts (l : List Int) : List Int := l.foldl (fun acc x => insertSorted x acc) []

def indexOfStrGo (s : String) : List String → Nat → Int
  | [], _ => -1
  | x :: xs, i => if x = s then (i : Int) else indexOfStrGo s xs (i + 1)

/-- JS `array.indexOf` for strings. -/
def indexOfStr (l : List String) (s : String) : Int := indexOfStrGo s l 0

def dayNames : List String :=
  ["sunday", "monday", "tuesday", "wednesday", "thursday", "friday", "saturday"]

/-! ## The NLP data model (`src/types/index.ts`) -/

/-- The sparse `ParsedCommand.entities` record; a missing JS field is `none`. -/
structure Entities where
  dateTime : Option Int
  duration : Option Int
  title : Option String
  attendees : Option (List String)
  location : Option String
  description : Option String
  contactName : Option String
  timeRange : Option (Int × Int)
  recurringPattern : Option RecurringPattern
  eventId : Option String
  reminderTime : Option Int
  reminderType : Option ReminderType
deriving DecidableEq, Repr

def emptyEntities : Entities :=
  ⟨none, none, none, none, none, none, none, none, none, none, none, none⟩

/-- `ParsedCommand`; `confidence` is an exact rational. -/
structure ParsedCommand where
  intent : CommandIntent
  entities : Entities
  confidence : ℚ
  originalText : String
deriving DecidableEq, Repr

/-! ## The intent classifier (`NLPService.detectIntent`) -/

/-- The five-character literal of the LIST_EVENTS pattern (apostrophe built explicitly). -/
def whatAposS : String := ("what".push apos).push 's'

def rexIntentAddAttendee : RE := rseq [.wb, ralts [rstr "add", rstr "invite"], .wb,
  .star dotAny, .wb, ralts [rstr "to", rstr "attendee", rstr "participant"], .wb]

def rexIntentCreate : RE := rseq [.wb,
  ralts [rstr "schedule", rstr "create", rstr "add", rstr "new", rstr "set up"], .wb,
  .star dotAny, .wb, ralts [rstr "event", rstr "meeting", rstr "appointment"], .wb]

def rexIntentUpdate : RE := rseq [.wb,
  ralts [rstr "update", rstr "change", rstr "modify", rstr "reschedule", rstr "move"], .wb,
  .star dotAny, .wb, ralts [rstr "event", rstr "meeting", rstr "appointment"], .wb]

def rexIntentDelete : RE := rseq [.wb,
  ralts [rstr "delete", rstr "cancel", rstr "remove"], .wb,
  .star dotAny, .wb, ralts [rstr "event", rstr "meeting", rstr "appointment"], .wb]

def rexIntentList : RE := rseq [.wb,
  ralts [rstr "list", rstr "show", rstr whatAposS, rstr "what is"], .wb,
  .star dotAny, .wb,
  ralts [rstr "calendar", rstr "schedule", rstr "events", rstr "appointments"], .wb]

def rexIntentQuery : RE := rseq [.wb, ralts [rstr "when", rstr "what time"], .wb,
  .star dotAny, .wb, ralts [rstr "meeting", rstr "event", rstr "appointment"], .wb]

def rexIntentAddContact : RE := rseq [.wb, ralts [rstr "add", rstr "create", rstr "new"], .wb,
  .star dotAny, .wb, ralts [rstr "contact", rstr "person"], .wb]

def rexIntentQueryContact : RE := rseq [.wb,
  ralts [rstr "find", rstr "search", rstr "lookup", rstr "who"], .wb,
  .star dotAny, .wb, ralts [rstr "contact", rstr "person", rstr "email", rstr "phone"], .wb]

def rexIntentReminder : RE := rseq [.wb,
  ralts [rstr "remind", rstr "reminder", rstr "alert"], .wb]

def rexIntentFindTime : RE := rseq [.wb,
  ralts [rstr "find time", rstr "find slot", rstr "available", rstr "free time"], .wb]

def rexIntentConflicts : RE := rseq [.wb,
  ralts [rstr "conflict", rstr "conflicts", rstr "overlapping",
    rseq [rstr "double", .opt dotAny, rstr "booked"]], .wb]

def rexIntentRecurringCreate : RE := rseq [.wb,
  ralts [rstr "create", rstr "schedule", rstr "add", rstr "new", rstr "set up"], .wb,
  .star dotAny, .wb,
  ralts [rstr "every", rstr "daily", rstr "weekly", rstr "monthly", rstr "yearly",
    rstr "recurring"], .wb]

/-- The ordered `(pattern, intent)` list of `detectIntent`. -/
def intentPatternList : List (RE × CommandIntent) :=
  [(rexIntentAddAttendee, .ADD_ATTENDEE),
   (rexIntentCreate, .CREATE_EVENT),
   (rexIntentUpdate, .UPDATE_EVENT),
   (rexIntentDelete, .DELETE_EVENT),
   (rexIntentList, .LIST_EVENTS),
   (rexIntentQuery, .QUERY_SCHEDULE),
   (rexIntentAddContact, .ADD_CONTACT),
   (rexIntentQueryContact, .QUERY_CONTACT),
   (rexIntentReminder, .SET_REMINDER),
   (rexIntentFindTime, .FIND_TIME),
   (rexIntentConflicts, .CHECK_CONFLICTS),
   (rexIntentRecurringCreate, .CREATE_EVENT)]

def detectIntentGo (input : List Char) : List (RE × CommandIntent) → CommandIntent
  | [] => .UNKNOWN
  | (re, intent) :: rest =>
    if reTest re 0 input then intent else detectIntentGo input rest

/-- `NLPService.detectIntent` applied to the lowercased input. -/
def detectIntent (input : String) : CommandIntent :=
  detectIntentGo input.data intentPatternList

/-! ## The date/time extractor (`NLPService.extractDateTime`) -/

def rexTimeAt : RE := rseq [.wb, rstrCI "at", sp1, .group 1 d12,
  .opt (rseq [rchar ':', .group 2 d2]), sp0,
  .group 3 (ralts [rstrCI "am", rstrCI "pm"]), .wb]

def rexTimeColon : RE := rseq [.wb, .group 1 d12, rchar ':', .group 2 d2, sp0,
  .opt (.group 3 (ralts [rstrCI "am", rstrCI "pm"])), .wb]

def rexTimeBare : RE := rseq [.wb, .group 1 d12, sp0,
  .group 2 (ralts [rstrCI "am", rstrCI "pm"]), .wb]

def rexTomorrow : RE := rseq [.wb, rstrCI "tomorrow", .wb]
def rexToday : RE := rseq [.wb, rstrCI "today", .wb]
def rexYesterday : RE := rseq [.wb, rstrCI "yesterday", .wb]

def dayAlts : RE := ralts [rstrCI "monday", rstrCI "tuesday", rstrCI "wednesday",
  rstrCI "thursday", rstrCI "friday", rstrCI "saturday", rstrCI "sunday"]

def rexNextWeekday : RE := rseq [.wb, rstrCI "next", sp1, .group 1 dayAlts, .wb]
def rexNextWeek : RE := rseq [.wb, rstrCI "next", sp1, rstrCI "week", .wb]
def rexNextMonth : RE := rseq [.wb, rstrCI "next", sp1, rstrCI "month", .wb]

def rexInHours : RE := rseq [.wb, rstrCI "in", sp1, .group 1 (rplus digit), sp1,
  .group 2 (ralts [rstrCI "hour", rstrCI "hours"]), .wb]

def rexInMinutes : RE := rseq [.wb, rstrCI "in", sp1, .group 1 (rplus digit), sp1,
  .group 2 (ralts [rstrCI "minute", rstrCI "minutes"]), .wb]

def rexInDays : RE := rseq [.wb, rstrCI "in", sp1, .group 1 (rplus digit), sp1,
  .group 2 (ralts [rstrCI "day", rstrCI "days"]), .wb]

def rexOnDate : RE := rseq [.wb, rstrCI "on", sp1, .group 1 d12, rchar '/',
  .group 2 d12, .opt (rseq [rchar '/', .group 3 (rseq [d2, .opt digit, .opt digit])]), .wb]

def rexDurHyphen : RE := rseq [.wb, .group 1 (rplus digit), rchar '-', rstrCI "hour", .wb]

def rexDurHours : RE := rseq [.wb, .group 1 (rplus digit), sp0,
  ralts [rstrCI "hour", rstrCI "hours", rstrCI "hr", rstrCI "hrs"], .wb]

def rexDurHoursFrac : RE := rseq [.wb,
  .group 1 (rseq [rplus digit, .opt (rchar '.'), .star digit]), sp0,
  ralts [rstrCI "hour", rstrCI "hours", rstrCI "hr", rstrCI "hrs"], .wb]

def rexDurMinutes : RE := rseq [.wb, .group 1 (rplus digit), sp0,
  ralts [rstrCI "minute", rstrCI "minutes", rstrCI "min", rstrCI "mins"], .wb]

/-- The hour/minute/period scan over the three time patterns; returns the
raw hour, the minutes (`none` models the NaN that `parseInt` on a non-digit
capture produces), mirroring the `match[1]`–`match[3]` handling. -/
def extractTimeOfDay (tl : List Char) : Option (Int × Option Int) :=
  let pats := [(rexTimeAt, 3), (rexTimeColon, 3), (rexTimeBare, 2)]
  match pats.findSome? fun pr => reFind pr.1 pr.2 tl with
  | none => none
  | some m =>
    let hours0 := digitsToInt ((capsGet m.caps 1).getD [])
    let minutes : Option Int :=
      match capsGet m.caps 2 with
      | some cap =>
        if cap.all Char.isDigit then some (digitsToInt cap) else none
      | none => some 0
    let hours :=
      match capsGet m.caps 3 with
      | some per =>
        let p := per.map Char.toLower
        if p = ['p', 'm'] ∧ hours0 < 12 then hours0 + 12
        else if p = ['a', 'm'] ∧ hours0 = 12 then 0
        else hours0
      | none => hours0
    some (hours, minutes)

/-- The date-anchoring scan; the `Bool` is `true` when the produced base date
is the very `now` object (only the `today` branch), which is what the
`baseDate !== now` identity test of the source distinguishes. -/
def extractBaseDate (now : Int) (tl : List Char) : Option (Int × Bool) :=
  if reTest rexTomorrow 0 tl then some (addTime now 1 .days, false)
  else if reTest rexToday 0 tl then some (now, true)
  else if reTest rexYesterday 0 tl then some (addTime now (-1) .days, false)
  else
    match reFind rexNextWeekday 1 tl with
    | some m =>
      let targetDay := indexOfStr dayNames ⟨((capsGet m.caps 1).getD []).map Char.toLower⟩
      let currentDay := getDay now
      let daysToAdd0 := targetDay - currentDay
      let daysToAdd := if daysToAdd0 ≤ 0 then daysToAdd0 + 7 else daysToAdd0
      some (addTime now daysToAdd .days, false)
    | none =>
      if reTest rexNextWeek 0 tl then some (addTime now 7 .days, false)
      else if reTest rexNextMonth 0 tl then some (addTime now 1 .months, false)
      else
        match reFind rexInHours 2 tl with
        | some m => some (addTime now (digitsToInt ((capsGet m.caps 1).getD [])) .hours, false)
        | none =>
          match reFind rexInMinutes 2 tl with
          | some m => some (addTime now (digitsToInt ((capsGet m.caps 1).getD [])) .minutes, false)
          | none =>
            match reFind rexInDays 2 tl with
            | some m => some (addTime now (digitsToInt ((capsGet m.caps 1).getD [])) .days, false)
            | none =>
              match reFind rexOnDate 3 tl with
              | some m =>
                let month := digitsToInt ((capsGet m.caps 1).getD []) - 1
                let day := digitsToInt ((capsGet m.caps 2).getD [])
                let year :=
                  match capsGet m.caps 3 with
                  | some y => digitsToInt y
                  | none => jsGetFullYear now
                some (mkDate year month day 0 0 0 0, false)
              | none => none

/-- The duration scan over the four duration patterns. -/
def extractDurationScan (tl : List Char) : Option Int :=
  match reFind rexDurHyphen 1 tl with
  | some m => some (digitsToInt ((capsGet m.caps 1).getD []) * 60)
  | none =>
    match reFind rexDurHours 1 tl with
    | some m => some (digitsToInt ((capsGet m.caps 1).getD []) * 60)
    | none =>
      match reFind rexDurHoursFrac 1 tl with
      | some m => some (parseFloatDigits ((capsGet m.caps 1).getD []) * 60)
      | none =>
        match reFind rexDurMinutes 1 tl with
        | some m => some (digitsToInt ((capsGet m.caps 1).getD []))
        | none => none

structure DTResult where
  dateTime : Option Int
  duration : Option Int
deriving DecidableEq, Repr

/-- `NLPService.extractDateTime`.  A NaN-minutes `setHours` (which in JS
produces an Invalid Date object) is modelled as an absent date. -/
def extractDateTime (now : Int) (text : String) : DTResult :=
  let tl := text.data
  let time := extractTimeOfDay tl
  let base := extractBaseDate now tl
  let dateTime : Option Int :=
    match time with
    | some (h, minutes) =>
      match minutes with
      | some mi =>
        let baseDate := match base with | some (b, _) => b | none => now
        some (jsSetHours baseDate h mi 0 0)
      | none => none
    | none =>
      match base with
      | some (b, sameObj) => if sameObj then none else some b
      | none => none
  let dur0 := extractDurationScan tl
  let dur :=
    match dur0 with
    | some d =>
      if d = 0 ∧ dateTime.isSome ∧
          (strHasSub "meeting".data tl || strHasSub "appointment".data tl) then
        some 60
      else some d
    | none =>
      if dateTime.isSome ∧
          (strHasSub "meeting".data tl || strHasSub "appointment".data tl) then
        some 60
      else none
  ⟨dateTime, dur⟩

/-! ## The remaining entity extractors -/

def rexTitleVerbs : RE := rseq [.wb,
  ralts [rstrCI "schedule", rstrCI "create", rstrCI "add", rstrCI "new",
    rstrCI "set up", rstrCI "update", rstrCI "change", rstrCI "modify"], .wb]

def rexTitleNouns : RE := rseq [.wb,
  ralts [rstrCI "event", rstrCI "meeting", rstrCI "appointment"], .wb]

def rexTitleTail : RE := rseq [.wb,
  ralts [rstrCI "with", rstrCI "at", rstrCI "on", rstrCI "in", rstrCI "for",
    rstrCI "from", rstrCI "to"], .wb, .star dotAny, .eol]

def quoteCls : RE := .cls (fun c => c == '"' || c == apos)

def rexQuoted : RE := rseq [quoteCls,
  .group 1 (rplus (.cls (fun c => !(c == '"' || c == apos)))), quoteCls]

/-- `NLPService.extractTitle`. -/
def extractTitle (text : String) : String :=
  let tl := text.data
  let stripped :=
    reStripAll rexTitleTail 0 (reStripAll rexTitleNouns 0 (reStripAll rexTitleVerbs 0 tl))
  let title0 := trimChars stripped
  let title :=
    match reFind rexQuoted 1 tl with
    | some m => (capsGet m.caps 1).getD []
    | none => title0
  if title.isEmpty then "Untitled Event" else ⟨title⟩

def nameRE : RE := .cat letter (rplus letter)

def namePair : RE := .cat nameRE (.opt (rseq [sp1, nameRE]))

def rexWith : RE := rseq [.wb, rstrCI "with", sp1,
  .group 1 (rseq [namePair,
    .star (rseq [sp0, rchar ',', sp0, namePair]),
    .opt (rseq [sp1, rstrCI "and", sp1, namePair])]), .wb]

def rexSplitNames : RE :=
  ralts [rseq [sp0, rchar ',', sp0], rseq [sp1, rstrCI "and", sp1]]

def rexNameFilter : RE := ralts [rstrCI "tomorrow", rstrCI "today", rstrCI "monday",
  rstrCI "tuesday", rstrCI "wednesday", rstrCI "thursday", rstrCI "friday",
  rstrCI "saturday", rstrCI "sunday",
  rseq [rplus digit, sp0, ralts [rstrCI "am", rstrCI "pm"]]]

def rexInvite : RE := rseq [.wb, ralts [rstrCI "invite", rstrCI "add"], sp1,
  .group 1 namePair, .wb]

/-- `NLPService.extractAttendees`. -/
def extractAttendees (text : String) : List String :=
  let tl := text.data
  let fromWith : List (List Char) :=
    match reFind rexWith 1 tl with
    | some m =>
      match capsGet m.caps 1 with
      | some cap =>
        ((reSplit rexSplitNames 0 cap).map trimChars).filter
          fun name => 0 < name.length && !(reTest rexNameFilter 0 name)
      | none => []
    | none => []
  let fromInvite : List (List Char) :=
    (reMatchAll rexInvite 1 tl).filterMap fun m => capsGet m.caps 1
  dedupFirst ((fromWith ++ fromInvite).map fun l => (⟨l⟩ : String))

def rexLocStopWords : RE := ralts [rstrCI "on", rstrCI "at", rstrCI "with",
  rstrCI "for", rstrCI "tomorrow", rstrCI "today", rstrCI "monday",
  rstrCI "tuesday", rstrCI "wednesday", rstrCI "thursday", rstrCI "friday",
  rstrCI "saturday", rstrCI "sunday",
  rseq [rplus digit, sp0, ralts [rstrCI "am", rstrCI "pm"]]]

def rexLoc1 : RE := rseq [.wb, ralts [rstrCI "at", rstrCI "in"], sp1,
  .opt (rseq [rstrCI "the", sp1]),
  .group 1 (.cat letter (rplusL (.cls (fun c => !(c == ',' || c == '.'))))),
  sp0, ralts [rchar ',', rchar '.', rseq [.wb, rexLocStopWords, .wb]]]

def rexLoc2 : RE := rseq [.wb, ralts [rstrCI "location", rstrCI "place", rstrCI "venue"],
  rchar ':', sp0, .group 1 (rplus (.cls (fun c => !(c == ',' || c == '.'))))]

def rexLocFilter : RE := rseq [.wb, rexLocStopWords, .wb]

def locFromMatch (m : RMatch) : Option (List Char) :=
  match capsGet m.caps 1 with
  | some cap =>
    let loc := trimChars cap
    if !(reTest rexLocFilter 0 loc) then some loc else none
  | none => none

/-- `NLPService.extractLocation`; a match whose capture is itself a date/time
expression falls through to the next pattern, as in the source loop. -/
def extractLocation (text : String) : Option String :=
  let tl := text.data
  match (reFind rexLoc1 1 tl).bind locFromMatch with
  | some l => some ⟨l⟩
  | none =>
    match (reFind rexLoc2 1 tl).bind locFromMatch with
    | some l => some ⟨l⟩
    | none => none

def rexContactNamed : RE := rseq [.wb,
  ralts [rstrCI "contact", rstrCI "person", rstrCI "add", rstrCI "find",
    rstrCI "search", rstrCI "lookup"], sp1,
  .opt (rseq [rstrCI "name", .opt (rcharCI 'd'), sp1]), .group 1 namePair, .wb]

def rexContactPossessive : RE := rseq [.wb, .group 1 namePair, rchar apos,
  rcharCI 's', sp1, ralts [rstrCI "email", rstrCI "phone", rstrCI "contact"], .wb]

/-- `NLPService.extractContactName`. -/
def extractContactName (text : String) : Option String :=
  let tl := text.data
  match reFind rexContactNamed 1 tl with
  | some m => (capsGet m.caps 1).map fun c => (⟨trimChars c⟩ : String)
  | none =>
    match reFind rexContactPossessive 1 tl with
    | some m => (capsGet m.caps 1).map fun c => (⟨trimChars c⟩ : String)
    | none => none

def rexThisWeek : RE := rseq [.wb, rstrCI "this", sp1, rstrCI "week", .wb]
def rexThisMonth : RE := rseq [.wb, rstrCI "this", sp1, rstrCI "month", .wb]

/-- `NLPService.extractTimeRange`. -/
def extractTimeRange (now : Int) (text : String) : Option (Int × Int) :=
  let tl := text.data
  if reTest rexToday 0 tl then
    some (jsSetHours now 0 0 0 0, jsSetHours now 23 59 59 999)
  else if reTest rexTomorrow 0 tl then
    some (jsSetHours (addTime now 1 .days) 0 0 0 0,
      jsSetHours (addTime now 1 .days) 23 59 59 999)
  else if reTest rexThisWeek 0 tl then
    let start := jsSetHours (jsSetDate now (jsGetDate now - getDay now)) 0 0 0 0
    some (start, jsSetHours (jsSetDate start (jsGetDate start + 6)) 23 59 59 999)
  else if reTest rexNextWeek 0 tl then
    let start := jsSetHours (jsSetDate now (jsGetDate now - getDay now + 7)) 0 0 0 0
    some (start, jsSetHours (jsSetDate start (jsGetDate start + 6)) 23 59 59 999)
  else if reTest rexThisMonth 0 tl then
    some (mkDate (jsGetFullYear now) (jsGetMonth now) 1 0 0 0 0,
      mkDate (jsGetFullYear now) (jsGetMonth now + 1) 0 23 59 59 999)
  else if reTest rexNextMonth 0 tl then
    some (mkDate (jsGetFullYear now) (jsGetMonth now + 1) 1 0 0 0 0,
      mkDate (jsGetFullYear now) (jsGetMonth now + 2) 0 23 59 59 999)
  else
    match (extractDateTime now text).dateTime with
    | some dt => some (jsSetHours dt 0 0 0 0, jsSetHours dt 23 59 59 999)
    | none => none

def rexRecTrigger : RE := ralts [rstrCI "every", rstrCI "daily", rstrCI "weekly",
  rstrCI "monthly", rstrCI "yearly", rstrCI "recurring"]

def rexDailyWord : RE := rseq [.wb, rstrCI "daily", .wb]
def rexEveryDay : RE := rseq [.wb, rstrCI "every", sp1, rstrCI "day", .wb]
def rexWeeklyWord : RE := rseq [.wb, rstrCI "weekly", .wb]
def rexEveryWeek : RE := rseq [.wb, rstrCI "every", sp1, rstrCI "week", .wb]
def rexMonthlyWord : RE := rseq [.wb, rstrCI "monthly", .wb]
def rexEveryMonth : RE := rseq [.wb, rstrCI "every", sp1, rstrCI "month", .wb]
def rexYearlyWord : RE := rseq [.wb, rstrCI "yearly", .wb]
def rexEveryYear : RE := rseq [.wb, rstrCI "every", sp1, rstrCI "year", .wb]

def rexInterval : RE := rseq [.wb, rstrCI "every", sp1, .group 1 (rplus digit), sp1,
  ralts [rseq [rstrCI "day", .opt (rcharCI 's')], rseq [rstrCI "week", .opt (rcharCI 's')],
    rseq [rstrCI "month", .opt (rcharCI 's')], rseq [rstrCI "year", .opt (rcharCI 's')]], .wb]

def rexDayList : RE := rseq [.wb, rstrCI "every", sp1, .group 1 dayAlts,
  .star (rseq [sp0, ralts [rseq [rchar ',', sp0], rseq [sp1, rstrCI "and", sp1]],
    .group 2 dayAlts])]

def rexSingleDay : RE := rseq [.wb, rstrCI "every", sp1, .group 1 dayAlts, .wb]

def rexDayOfMonth : RE := rseq [.wb, rstrCI "on", sp1, rstrCI "the", sp1,
  .group 1 d12, .opt (ralts [rstrCI "st", rstrCI "nd", rstrCI "rd", rstrCI "th"]), .wb]

def rexUntil : RE := rseq [.wb, rstrCI "until", sp1,
  .group 1 (rplus (.cls (fun c => !(c == ','))))]

def rexOccurrences : RE := rseq [.wb, rstrCI "for", sp1, .group 1 (rplus digit), sp1,
  ralts [rseq [rstrCI "time", .opt (rcharCI 's')],
    rseq [rstrCI "occurrence", .opt (rcharCI 's')]], .wb]

def dayIdxOfCap (cap : List Char) : Int :=
  indexOfStr dayNames ⟨cap.map Char.toLower⟩

/-- `NLPService.extractRecurringPattern`. -/
def extractRecurringPattern (now : Int) (text : String) : Option RecurringPattern :=
  let tl := text.data
  if !(reTest rexRecTrigger 0 tl) then none
  else
    let freq : RecurrenceFrequency :=
      if reTest rexDailyWord 0 tl || reTest rexEveryDay 0 tl then .DAILY
      else if reTest rexWeeklyWord 0 tl || reTest rexEveryWeek 0 tl then .WEEKLY
      else if reTest rexMonthlyWord 0 tl || reTest rexEveryMonth 0 tl then .MONTHLY
      else if reTest rexYearlyWord 0 tl || reTest rexEveryYear 0 tl then .YEARLY
      else .DAILY
    let interval : Int :=
      match reFind rexInterval 1 tl with
      | some m => digitsToInt ((capsGet m.caps 1).getD [])
      | none => 1
    let daysOfWeek : Option (List Int) :=
      if freq = .WEEKLY then
        let fromList := (reMatchAll rexDayList 2 tl).flatMap fun m =>
          ([capsGet m.caps 1, capsGet m.caps 2].filterMap id).filterMap fun cap =>
            let idx := dayIdxOfCap cap
            if idx = -1 then none else some idx
        let fromSingle := (reMatchAll rexSingleDay 1 tl).flatMap fun m =>
          match capsGet m.caps 1 with
          | some cap =>
            let idx := dayIdxOfCap cap
            if idx = -1 then [] else [idx]
          | none => []
        let all := fromList ++ fromSingle
        if 0 < all.length then some (sortInts (dedupFirstInt all)) else none
      else none
    let dayOfMonth : Option Int :=
      if freq = .MONTHLY then
        match reFind rexDayOfMonth 1 tl with
        | some m => (capsGet m.caps 1).map digitsToInt
        | none => none
      else none
    let endDate : Option Int :=
      match reFind rexUntil 1 tl with
      | some m =>
        match capsGet m.caps 1 with
        | some cap => (extractDateTime now ⟨cap⟩).dateTime
        | none => none
      | none => none
    let occurrences : Option Int :=
      match reFind rexOccurrences 1 tl with
      | some m => (capsGet m.caps 1).map digitsToInt
      | none => none
    some ⟨freq, some interval, daysOfWeek, dayOfMonth, endDate, occurrences⟩

def rexEmail : RE := rseq [.wb, rstrCI "email", .wb]

def rexSmsOrText : RE :=
  .alt (rseq [.wb, rstrCI "sms", .wb]) (rseq [.wb, rstrCI "text", .wb])

/-- `NLPService.extractReminderInfo`. -/
def extractReminderInfo (now : Int) (text : String) : Option Int × Option ReminderType :=
  let rt := (extractDateTime now text).dateTime
  let ty :=
    if reTest rexEmail 0 text.data then ReminderType.EMAIL
    else if reTest rexSmsOrText 0 text.data then ReminderType.SMS
    else ReminderType.PUSH
  (rt, some ty)

/-! ## The fallback parser and the `parseCommand` facade -/

/-- `NLPService.extractEntities`: run the extractors relevant to the intent;
JS truthiness makes a zero duration and an empty-string location stay
absent. -/
def extractEntities (now : Int) (text : String) (intent : CommandIntent) : Entities :=
  let dt := extractDateTime now text
  let dateTime := dt.dateTime
  let duration :=
    match dt.duration with
    | some d => if d = 0 then none else some d
    | none => none
  let title :=
    if intent = .CREATE_EVENT ∨ intent = .UPDATE_EVENT then some (extractTitle text)
    else none
  let attendees :=
    let a := extractAttendees text
    if 0 < a.length then some a else none
  let location :=
    match extractLocation text with
    | some s => if s.isEmpty then none else some s
    | none => none
  let contactName :=
    if intent = .ADD_CONTACT ∨ intent = .QUERY_CONTACT ∨ intent = .ADD_ATTENDEE then
      extractContactName text
    else none
  let timeRange :=
    if intent = .LIST_EVENTS ∨ intent = .QUERY_SCHEDULE ∨ intent = .FIND_TIME
        ∨ intent = .CHECK_CONFLICTS then
      extractTimeRange now text
    else none
  let recurringPattern := extractRecurringPattern now text
  let reminder :=
    if intent = .SET_REMINDER then extractReminderInfo now text else (none, none)
  { dateTime := dateTime, duration := duration, title := title,
    attendees := attendees, location := location, description := none,
    contactName := contactName, timeRange := timeRange,
    recurringPattern := recurringPattern, eventId := none,
    reminderTime := reminder.1, reminderType := reminder.2 }

/-- `NLPService.fallbackParse`. -/
def fallbackParse (now : Int) (input : String) : ParsedCommand :=
  let intent := detectIntent (jsTrim (jsToLower input))
  let confidence : ℚ := if intent ≠ CommandIntent.UNKNOWN then 6/10 else 3/10
  ⟨intent, extractEntities now input intent, confidence, input⟩

/-! ## The remote parsing client (`NLPService.parseWithAI`) -/

/-- The raw `recurringPattern` object of an AI JSON reply. -/
structure AIRawRecurring where
  frequency : Option String
  interval : Option Int
  daysOfWeek : Option (List Int)
  dayOfMonth : Option Int
  endDate : Option Int
  occurrences : Option Int
deriving DecidableEq, Repr

/-- The raw `entities` object of an AI JSON reply; serialized dates are
modelled by the instants they denote. -/
structure AIRawEntities where
  dateTime : Option Int
  duration : Option Int
  title : Option String
  attendees : Option (List String)
  location : Option String
  description : Option String
  contactName : Option String
  timeRange : Option (Int × Int)
  recurringPattern : Option AIRawRecurring
  eventId : Option String
  reminderTime : Option Int
  reminderType : Option String
deriving DecidableEq, Repr

def emptyAIRawEntities : AIRawEntities :=
  ⟨none, none, none, none, none, none, none, none, none, none, none, none⟩

/-- A parsed AI JSON reply. -/
structure AIResponse where
  intent : Option String
  confidence : Option ℚ
  entities : Option AIRawEntities
deriving DecidableEq, Repr

def intentNames : List (String × CommandIntent) :=
  [("CREATE_EVENT", .CREATE_EVENT), ("UPDATE_EVENT", .UPDATE_EVENT),
   ("DELETE_EVENT", .DELETE_EVENT), ("LIST_EVENTS", .LIST_EVENTS),
   ("QUERY_SCHEDULE", .QUERY_SCHEDULE), ("ADD_CONTACT", .ADD_CONTACT),
   ("QUERY_CONTACT", .QUERY_CONTACT), ("SET_REMINDER", .SET_REMINDER),
   ("FIND_TIME", .FIND_TIME), ("FIND_FREE_TIME", .FIND_FREE_TIME),
   ("ADD_ATTENDEE", .ADD_ATTENDEE), ("CHECK_CONFLICTS", .CHECK_CONFLICTS),
   ("UNKNOWN", .UNKNOWN)]

def freqNames : List (String × RecurrenceFrequency) :=
  [("DAILY", .DAILY), ("WEEKLY", .WEEKLY), ("MONTHLY", .MONTHLY), ("YEARLY", .YEARLY)]

def reminderNames : List (String × ReminderType) :=
  [("EMAIL", .EMAIL), ("PUSH", .PUSH), ("SMS", .SMS)]

/-- `NLPService.validateAndTransformAIResponse`. -/
def validateAndTransformAIResponse (resp : AIResponse) (originalText : String) :
    ParsedCommand :=
  let intent : CommandIntent :=
    match resp.intent with
    | some s => if s.isEmpty then .UNKNOWN else (intentNames.lookup s).getD .UNKNOWN
    | none => .UNKNOWN
  let raw := resp.entities.getD emptyAIRawEntities
  let recurringPattern : Option RecurringPattern :=
    raw.recurringPattern.map fun rp =>
      { frequency :=
          match rp.frequency with
          | some s => (freqNames.lookup s).getD .DAILY
          | none => .DAILY,
        interval := some (jsOrInt rp.interval 1),
        daysOfWeek := rp.daysOfWeek,
        dayOfMonth := rp.dayOfMonth,
        endDate := rp.endDate,
        occurrences := rp.occurrences }
  let reminderType : Option ReminderType :=
    match raw.reminderType with
    | some s => some ((reminderNames.lookup s).getD .PUSH)
    | none => none
  let confidence : ℚ :=
    match resp.confidence with
    | some q => if q = 0 then 1/2 else q
    | none => 1/2
  { intent := intent,
    entities :=
      { dateTime := raw.dateTime, duration := raw.duration, title := raw.title,
        attendees := raw.attendees, location := raw.location,
        description := raw.description, contactName := raw.contactName,
        timeRange := raw.timeRange, recurringPattern := recurringPattern,
        eventId := raw.eventId, reminderTime := raw.reminderTime,
        reminderType := reminderType },
    confidence := confidence, originalText := originalText }

/-- The outcome of one remote HTTP attempt. -/
inductive AIOutcome where
  | ok : AIResponse → AIOutcome
  | emptyContent : AIOutcome
  | badJson : AIOutcome
  | httpErr : Int → Option Int → AIOutcome
  | netErr : AIOutcome
deriving DecidableEq, Repr

/-- A non-429 4xx response is thrown without retrying. -/
def isClientErrNon429 : AIOutcome → Bool
  | .httpErr st _ => decide (400 ≤ st) && decide (st < 500) && !(st == 429)
  | _ => false

/-- A 429 response records a cool-down deadline from the `retry-after` header
(`parseInt(retryAfter) || 60` seconds). -/
def rateLimitUpdate (now : Int) (o : AIOutcome) (reset : Int) : Int :=
  match o with
  | .httpErr st ra => if st = 429 then now + jsOrInt ra 60 * 1000 else reset
  | _ => reset

def maxRetries : Nat := 3

/-- The retry loop of `NLPService.parseWithAI`; `none` models the error the
loop rethrows after a non-retriable failure or after the attempt budget is
exhausted, and the returned `Int` is the updated rate-limit deadline. -/
def parseWithAIGo (now : Int) (attempts : Nat → AIOutcome) (input : String) :
    Nat → Nat → Int → Option ParsedCommand × Int
  | 0, _, reset => (none, reset)
  | fuel + 1, attempt, reset =>
    match attempts attempt with
    | .ok resp => (some (validateAndTransformAIResponse resp input), reset)
    | o =>
      let reset' := rateLimitUpdate now o reset
      if isClientErrNon429 o then (none, reset')
      else if attempt < maxRetries then parseWithAIGo now attempts input fuel (attempt + 1) reset'
      else (none, reset')

/-- `NLPService.parseWithAI` (attempts are numbered from 1). -/
def parseWithAI (now : Int) (attempts : Nat → AIOutcome) (input : String)
    (reset : Int) : Option ParsedCommand × Int :=
  parseWithAIGo now attempts input maxRetries 1 reset

/-- Whether a remote credential is configured (`config.openrouter.apiKey`
truthiness). -/
structure NLPConfig where
  apiKeyPresent : Bool
deriving DecidableEq, Repr

/-- The mutable service state: the rate-limit deadline and the cache. -/
structure NLPState where
  rateLimitReset : Int
  cacheStore : MemoryCache ParsedCommand
deriving DecidableEq, Repr

/-- `NLPService.parseCommand`: cache lookup, rate-limit check, remote parse
with local fallback, cache write.  The surrounding `try`/`catch` turns the
error propagated from `parseWithAI` into a direct `fallbackParse` call with
no cache write. -/
def parseCommand (cfg : NLPConfig) (attempts : Nat → AIOutcome) (now : Int)
    (st : NLPState) (input : String) : ParsedCommand × NLPState :=
  let cacheKey := "nlp:" ++ jsTrim (jsToLower input)
  match cacheGet st.cacheStore cacheKey now with
  | (some cached, cache') => (cached, { st with cacheStore := cache' })
  | (none, cache') =>
    if now < st.rateLimitReset then
      (fallbackParse now input, { st with cacheStore := cache' })
    else if cfg.apiKeyPresent then
      match parseWithAI now attempts input st.rateLimitReset with
      | (some cmd, reset') =>
        (cmd, { rateLimitReset := reset',
                cacheStore := cacheSet cache' cacheKey cmd (some 3600) now })
      | (none, reset') =>
        (fallbackParse now input, { rateLimitReset := reset', cacheStore := cache' })
    else
      let cmd := fallbackParse now input
      (cmd, { st with cacheStore := cacheSet cache' cacheKey cmd (some 3600) now })

/-! ## Correctness of the civil-calendar conversions -/

theorem sub_ediv_mono (n : Int) (hn : 0 < n) {a b : Int} (hab : a ≤ b) :
    a - a / n ≤ b - b / n := by
  have hbn : b ≤ a + (b - a) * n := by nlinarith
  have h2 : b / n ≤ a / n + (b - a) :=
    (Int.ediv_le_ediv hn hbn).trans_eq (Int.add_mul_ediv_right a (b - a) (ne_of_gt hn))
  omega

theorem qpart_mono {a b : Int} (h0 : 0 ≤ a) (hab : a ≤ b) (hb : b ≤ 146096) :
    a / 36524 - a / 146096 ≤ b / 36524 - b / 146096 := by
  rcases lt_or_eq_of_le hb with hb' | hb'
  · have ha2 : a / 146096 = 0 := Int.ediv_eq_zero_of_lt h0 (by omega)
    have hb2 : b / 146096 = 0 := Int.ediv_eq_zero_of_lt (by omega) (by omega)
    have := Int.ediv_le_ediv (by norm_num : (0:Int) < 36524) hab
    omega
  · subst hb'
    rcases lt_or_eq_of_le hab with ha' | ha'
    · have ha2 : a / 146096 = 0 := Int.ediv_eq_zero_of_lt h0 (by omega)
      have h3 : a / 36524 ≤ (146095 : Int) / 36524 :=
        Int.ediv_le_ediv (by norm_num) (by omega)
      norm_num at h3
      norm_num
      omega
    · omega

theorem yoeOfDoe_mono {a b : Int} (h0 : 0 ≤ a) (hab : a ≤ b) (hb : b ≤ 146096) :
    yoeOfDoe a ≤ yoeOfDoe b := by
  unfold yoeOfDoe
  have h1 := sub_ediv_mono 1460 (by norm_num) hab
  have h2 := qpart_mono h0 hab hb
  exact Int.ediv_le_ediv (by norm_num) (by omega)

set_option maxRecDepth 10000 in
theorem yoe_boundary_lo : ∀ k : Nat, k < 400 → yoeOfDoe (yearStartOfYoe (k : Int)) = (k : Int) := by
  decide

set_option maxRecDepth 10000 in
theorem yoe_boundary_hi : ∀ k : Nat, k < 400 → yoeOfDoe (yearEndOfYoe (k : Int) - 1) = (k : Int) := by
  decide

set_option maxRecDepth 10000 in
theorem year_bounds : ∀ k : Nat, k < 400 →
    0 ≤ yearStartOfYoe (k : Int) ∧ yearEndOfYoe (k : Int) ≤ 146097 ∧
    365 ≤ yearEndOfYoe (k : Int) - yearStartOfYoe (k : Int) ∧
    yearEndOfYoe (k : Int) - yearStartOfYoe (k : Int) ≤ 366 := by
  decide

theorem yoe_boundary_lo' {y : Int} (h0 : 0 ≤ y) (h1 : y < 400) :
    yoeOfDoe (yearStartOfYoe y) = y := by
  have h := yoe_boundary_lo y.toNat (by omega)
  rwa [Int.toNat_of_nonneg h0] at h

theorem yoe_boundary_hi' {y : Int} (h0 : 0 ≤ y) (h1 : y < 400) :
    yoeOfDoe (yearEndOfYoe y - 1) = y := by
  have h := yoe_boundary_hi y.toNat (by omega)
  rwa [Int.toNat_of_nonneg h0] at h

theorem year_bounds' {y : Int} (h0 : 0 ≤ y) (h1 : y < 400) :
    0 ≤ yearStartOfYoe y ∧ yearEndOfYoe y ≤ 146097 ∧
    365 ≤ yearEndOfYoe y - yearStartOfYoe y ∧
    yearEndOfYoe y - yearStartOfYoe y ≤ 366 := by
  have h := year_bounds y.toNat (by omega)
  rwa [Int.toNat_of_nonneg h0] at h

theorem yoe_sandwich {doe : Int} (h0 : 0 ≤ doe) (h1 : doe < 146097) :
    0 ≤ yoeOfDoe doe ∧ yoeOfDoe doe < 400 ∧
    yearStartOfYoe (yoeOfDoe doe) ≤ doe ∧ doe < yearEndOfYoe (yoeOfDoe doe) := by
  have h00 : yoeOfDoe 0 = 0 := by decide
  have hLast : yoeOfDoe 146096 = 399 := by decide
  have hge : 0 ≤ yoeOfDoe doe := by
    have := yoeOfDoe_mono (le_refl 0) h0 (by omega)
    omega
  have hle : yoeOfDoe doe ≤ 399 := by
    have := yoeOfDoe_mono h0 (by omega : doe ≤ 146096) (by omega)
    omega
  refine ⟨hge, by omega, ?_, ?_⟩
  · by_cases hy : yoeOfDoe doe = 0
    · rw [hy]
      have : yearStartOfYoe 0 = 0 := by decide
      omega
    · by_contra hcon
      push_neg at hcon
      have hyb := year_bounds' hge (by omega)
      have hEq : yearEndOfYoe (yoeOfDoe doe - 1) = yearStartOfYoe (yoeOfDoe doe) := by
        unfold yearEndOfYoe
        rw [if_neg (by omega)]
        norm_num
      have hmono := yoeOfDoe_mono h0 (by omega : doe ≤ yearStartOfYoe (yoeOfDoe doe) - 1)
        (by omega : yearStartOfYoe (yoeOfDoe doe) - 1 ≤ 146096)
      rw [← hEq] at hmono
      rw [yoe_boundary_hi' (by omega) (by omega)] at hmono
      omega
  · by_cases hy : yoeOfDoe doe = 399
    · rw [hy]
      unfold yearEndOfYoe
      rw [if_pos rfl]
      omega
    · by_contra hcon
      push_neg at hcon
      have hEq : yearEndOfYoe (yoeOfDoe doe) = yearStartOfYoe (yoeOfDoe doe + 1) := by
        unfold yearEndOfYoe
        rw [if_neg hy]
      rw [hEq] at hcon
      have hyb := year_bounds' (by omega : (0:Int) ≤ yoeOfDoe doe + 1) (by omega)
      have hmono := yoeOfDoe_mono (by omega : (0:Int) ≤ yearStartOfYoe (yoeOfDoe doe + 1))
        hcon (by omega : doe ≤ 146096)
      rw [yoe_boundary_lo' (by omega) (by omega)] at hmono
      omega

theorem doeOf_spec (z : Int) :
    0 ≤ doeOf z ∧ doeOf z < 146097 ∧ z + 719468 = eraOf z * 146097 + doeOf z := by
  unfold doeOf eraOf
  omega

theorem yearContrib_eq {yoe : Int} (era : Int) (h0 : 0 ≤ yoe) (h1 : yoe < 400) :
    yearContrib (yoe + era * 400) = era * 146097 + yearStartOfYoe yoe := by
  unfold yearContrib
  have h2 : (yoe + era * 400) / 400 = era := by omega
  have h3 : (yoe + era * 400) % 400 = yoe := by omega
  rw [h2, h3]

theorem yearContrib_succ (w : Int) :
    yearContrib (w + 1) =
      yearContrib w + (yearEndOfYoe (w % 400) - yearStartOfYoe (w % 400)) := by
  by_cases h : w % 400 = 399
  · have e1 : (w + 1) / 400 = w / 400 + 1 := by omega
    have e2 : (w + 1) % 400 = 0 := by omega
    unfold yearContrib yearEndOfYoe
    rw [e1, e2, if_pos h, h]
    have hz : yearStartOfYoe 0 = 0 := by decide
    have h399 : yearStartOfYoe 399 = 145731 := by decide
    rw [hz, h399]
    ring
  · have e1 : (w + 1) / 400 = w / 400 := by omega
    have e2 : (w + 1) % 400 = w % 400 + 1 := by omega
    unfold yearContrib yearEndOfYoe
    rw [e1, e2, if_neg h]
    ring

theorem yearLen_bounds (w : Int) :
    365 ≤ yearContrib (w + 1) - yearContrib w ∧
    yearContrib (w + 1) - yearContrib w ≤ 366 := by
  rw [yearContrib_succ]
  have h0 : 0 ≤ w % 400 := by omega
  have h1 : w % 400 < 400 := by omega
  have := year_bounds' h0 h1
  omega

theorem zW_emod (z : Int) : zW z % 400 = zYoe z ∧ zW z / 400 = eraOf z := by
  have hd := doeOf_spec z
  have hs := yoe_sandwich hd.1 hd.2.1
  unfold zW zYoe at *
  constructor <;> omega

theorem zDoy_spec (z : Int) :
    0 ≤ zDoy z ∧ zDoy z < yearContrib (zW z + 1) - yearContrib (zW z) := by
  have hd := doeOf_spec z
  have hs := yoe_sandwich hd.1 hd.2.1
  have hmod := zW_emod z
  rw [yearContrib_succ, hmod.1]
  unfold zDoy zYoe at *
  omega

theorem zMp_spec (z : Int) :
    0 ≤ zMp z ∧ zMp z ≤ 11 ∧ moff (zMp z) ≤ zDoy z ∧ zDoy z < moff (zMp z + 1) := by
  have h := zDoy_spec z
  have hlen := yearLen_bounds (zW z)
  have h365 : zDoy z ≤ 365 := by omega
  have h0 : 0 ≤ zDoy z := h.1
  unfold zMp mpOfDoy moff
  omega

theorem z_reconstruct (z : Int) : z = yearContrib (zW z) + zDoy z - 719468 := by
  have hd := doeOf_spec z
  have hs := yoe_sandwich hd.1 hd.2.1
  have hyc : yearContrib (zW z) = eraOf z * 146097 + yearStartOfYoe (zYoe z) := by
    unfold zW
    exact yearContrib_eq (eraOf z) hs.1 hs.2.1
  unfold zDoy
  omega

theorem civil_y (z : Int) :
    (civilFromDays z).1 = zW z + (if zM z ≤ 2 then 1 else 0) := rfl

theorem civil_m (z : Int) : (civilFromDays z).2.1 = zM z := rfl

theorem civil_d (z : Int) : (civilFromDays z).2.2 = zDoy z - moff (zMp z) + 1 := rfl

theorem zM_range (z : Int) : 1 ≤ zM z ∧ zM z ≤ 12 := by
  have := zMp_spec z
  unfold zM
  split_ifs <;> omega

theorem civil_d_ge_one (z : Int) : 1 ≤ (civilFromDays z).2.2 := by
  rw [civil_d]
  have := zMp_spec z
  omega

theorem daysFromCivil_as_yearContrib (y m d : Int) :
    daysFromCivil y m d =
      yearContrib (y - (if m ≤ 2 then 1 else 0))
        + moff (m + (if 2 < m then -3 else 9)) + d - 1 - 719468 := by
  unfold daysFromCivil yearContrib
  have h : (y - (if m ≤ 2 then 1 else 0)) % 400 =
      (y - (if m ≤ 2 then 1 else 0)) - (y - (if m ≤ 2 then 1 else 0)) / 400 * 400 := by
    omega
  rw [h]
  ring

theorem daysFromCivil_civilFromDays (z : Int) :
    daysFromCivil (civilFromDays z).1 (civilFromDays z).2.1 (civilFromDays z).2.2 = z := by
  rw [civil_y, civil_m, civil_d, daysFromCivil_as_yearContrib]
  have hmp := zMp_spec z
  have hrec := z_reconstruct z
  by_cases h10 : zMp z < 10
  · have hm : zM z = zMp z + 3 := by unfold zM; rw [if_pos h10]
    have hgt : ¬(zM z ≤ 2) := by omega
    have hgt2 : 2 < zM z := by omega
    rw [if_neg hgt, if_pos hgt2]
    have e1 : zW z + 0 - 0 = zW z := by ring
    have e2 : zM z + -3 = zMp z := by omega
    rw [e1, e2]
    omega
  · have hm : zM z = zMp z + -9 := by unfold zM; rw [if_neg h10]
    have hle : zM z ≤ 2 := by omega
    have hle2 : ¬(2 < zM z) := by omega
    rw [if_pos hle, if_neg hle2]
    have e1 : zW z + 1 - 1 = zW z := by ring
    have e2 : zM z + 9 = zMp z := by omega
    rw [e1, e2]
    omega

theorem monthStartDays_monthIdx (z : Int) :
    monthStartDays (monthIdx z) =
      daysFromCivil (civilFromDays z).1 (civilFromDays z).2.1 1 := by
  unfold monthStartDays monthIdx
  have hm := zM_range z
  rw [civil_m] at *
  have e1 : (12 * (civilFromDays z).1 + zM z - 1) / 12 = (civilFromDays z).1 := by omega
  have e2 : (12 * (civilFromDays z).1 + zM z - 1) % 12 + 1 = zM z := by omega
  rw [e1, e2]

theorem monthStart_day_split (z : Int) :
    z = monthStartDays (monthIdx z) + ((civilFromDays z).2.2 - 1) := by
  rw [monthStartDays_monthIdx]
  have h := daysFromCivil_civilFromDays z
  rw [daysFromCivil_as_yearContrib] at h
  rw [daysFromCivil_as_yearContrib]
  omega

theorem monthStartDays_eq (t : Int) :
    monthStartDays t =
      yearContrib (t / 12 - (if t % 12 + 1 ≤ 2 then 1 else 0))
        + moff (t % 12 + 1 + (if 2 < t % 12 + 1 then -3 else 9)) - 719468 := by
  unfold monthStartDays
  rw [daysFromCivil_as_yearContrib]
  ring

set_option maxRecDepth 2000 in
theorem moff_strict : ∀ k : Nat, k ≤ 10 → moff (k : Int) < moff ((k : Int) + 1) := by
  decide

theorem moff_strict' {s : Int} (h0 : 0 ≤ s) (h1 : s ≤ 10) : moff s < moff (s + 1) := by
  have h := moff_strict s.toNat (by omega)
  rwa [Int.toNat_of_nonneg h0] at h

theorem monthStartDays_alt (t : Int) :
    monthStartDays t =
      yearContrib ((t - 2) / 12) + moff ((t - 2) % 12) - 719468 := by
  rw [monthStartDays_eq]
  by_cases h : t % 12 + 1 ≤ 2
  · rw [if_pos h, if_neg (by omega)]
    have e1 : (t - 2) / 12 = t / 12 - 1 := by omega
    have e2 : (t - 2) % 12 = t % 12 + 1 + 9 := by omega
    rw [e1, e2]
  · rw [if_neg h, if_pos (by omega)]
    have e1 : (t - 2) / 12 = t / 12 := by omega
    have e2 : (t - 2) % 12 = t % 12 + 1 + -3 := by omega
    rw [e1, e2]
    ring_nf

theorem monthStart_lt_succ (t : Int) : monthStartDays t < monthStartDays (t + 1) := by
  rw [monthStartDays_alt, monthStartDays_alt]
  by_cases h : (t - 2) % 12 = 11
  · have e1 : (t + 1 - 2) / 12 = (t - 2) / 12 + 1 := by omega
    have e2 : (t + 1 - 2) % 12 = 0 := by omega
    rw [e1, e2, h]
    have hy := yearLen_bounds ((t - 2) / 12)
    have h0 : moff 0 = 0 := by decide
    have h11 : moff 11 = 337 := by decide
    omega
  · have e1 : (t + 1 - 2) / 12 = (t - 2) / 12 := by omega
    have e2 : (t + 1 - 2) % 12 = (t - 2) % 12 + 1 := by omega
    rw [e1, e2]
    have := moff_strict' (by omega : 0 ≤ (t - 2) % 12) (by omega)
    omega

theorem monthStartDays_strictMono : StrictMono monthStartDays :=
  strictMono_int_of_lt_succ monthStart_lt_succ

theorem monthIdx_decomp (z : Int) : monthIdx z - 2 = 12 * zW z + zMp z := by
  unfold monthIdx
  rw [civil_y, civil_m]
  have hmp := zMp_spec z
  unfold zM
  split_ifs <;> omega

theorem lt_monthStart_succ (z : Int) : z < monthStartDays (monthIdx z + 1) := by
  rw [monthStartDays_alt]
  have hdec := monthIdx_decomp z
  have hmp := zMp_spec z
  have hdoy := zDoy_spec z
  have hrec := z_reconstruct z
  by_cases h : zMp z = 11
  · have e1 : (monthIdx z + 1 - 2) / 12 = zW z + 1 := by omega
    have e2 : (monthIdx z + 1 - 2) % 12 = 0 := by omega
    rw [e1, e2]
    have h0 : moff 0 = 0 := by decide
    omega
  · have e1 : (monthIdx z + 1 - 2) / 12 = zW z := by omega
    have e2 : (monthIdx z + 1 - 2) % 12 = zMp z + 1 := by omega
    rw [e1, e2]
    have hms : monthStartDays (monthIdx z) = yearContrib (zW z) + moff (zMp z) - 719468 := by
      rw [monthStartDays_alt]
      have f1 : (monthIdx z - 2) / 12 = zW z := by omega
      have f2 : (monthIdx z - 2) % 12 = zMp z := by omega
      rw [f1, f2]
    omega

theorem monthStart_monthIdx_eq (z : Int) :
    monthStartDays (monthIdx z) = yearContrib (zW z) + moff (zMp z) - 719468 := by
  rw [monthStartDays_alt]
  have hdec := monthIdx_decomp z
  have hmp := zMp_spec z
  have f1 : (monthIdx z - 2) / 12 = zW z := by omega
  have f2 : (monthIdx z - 2) % 12 = zMp z := by omega
  rw [f1, f2]

theorem addTime_days_eq (t n : Int) : addTime t n .days = t + n * msPerDay := by
  show jsSetDate t (jsGetDate t + n) = _
  unfold jsSetDate jsGetDate
  dsimp only
  have h := monthStart_day_split (dayOf t)
  rw [monthStartDays_monthIdx] at h
  have ht : dayOf t * msPerDay + todOf t = t := by unfold dayOf todOf msPerDay; omega
  unfold msPerDay at *
  omega

theorem getDay_addTime_days (t : Int) (n : Int) :
    getDay (addTime t n .days) = (getDay t + n) % 7 := by
  rw [addTime_days_eq]
  unfold getDay dayOf msPerDay
  omega

theorem jsSetMonth_day (t k : Int) :
    jsSetMonth t (jsGetMonth t + k)
      = (monthStartDays (monthIdx (dayOf t) + k) + (jsGetDate t - 1)) * msPerDay
        + todOf t := by
  unfold jsSetMonth jsGetMonth jsGetDate monthStartDays monthIdx
  dsimp only
  have hm := zM_range (dayOf t)
  rw [← civil_m (dayOf t)] at hm
  have e1 : (12 * (civilFromDays (dayOf t)).1 + (civilFromDays (dayOf t)).2.1 - 1 + k) / 12
      = (civilFromDays (dayOf t)).1 + ((civilFromDays (dayOf t)).2.1 - 1 + k) / 12 := by
    omega
  have e2 : (12 * (civilFromDays (dayOf t)).1 + (civilFromDays (dayOf t)).2.1 - 1 + k) % 12
      = ((civilFromDays (dayOf t)).2.1 - 1 + k) % 12 := by
    omega
  rw [e1, e2]

theorem jsSetFullYear_day (t k : Int) :
    jsSetFullYear t (jsGetFullYear t + k)
      = (monthStartDays (monthIdx (dayOf t) + 12 * k) + (jsGetDate t - 1)) * msPerDay
        + todOf t := by
  unfold jsSetFullYear jsGetFullYear jsGetDate monthStartDays monthIdx
  dsimp only
  have hm := zM_range (dayOf t)
  rw [← civil_m (dayOf t)] at hm
  have e1 : (12 * (civilFromDays (dayOf t)).1 + (civilFromDays (dayOf t)).2.1 - 1 + 12 * k) / 12
      = (civilFromDays (dayOf t)).1 + k := by
    omega
  have e2 : (12 * (civilFromDays (dayOf t)).1 + (civilFromDays (dayOf t)).2.1 - 1 + 12 * k) % 12 + 1
      = (civilFromDays (dayOf t)).2.1 := by
    omega
  rw [e1, e2]

theorem todOf_bounds (t : Int) : 0 ≤ todOf t ∧ todOf t < msPerDay := by
  unfold todOf msPerDay
  omega

theorem dayOf_of_mk {dayv r : Int} (h0 : 0 ≤ r) (h1 : r < msPerDay) :
    dayOf (dayv * msPerDay + r) = dayv ∧ todOf (dayv * msPerDay + r) = r := by
  unfold dayOf todOf msPerDay at *
  omega

theorem addTime_months_gt (t k : Int) (hk : 1 ≤ k) : t < addTime t k .months := by
  show t < jsSetMonth t (jsGetMonth t + k)
  rw [jsSetMonth_day]
  have hsplit := monthStart_day_split (dayOf t)
  have hmono := monthStartDays_strictMono
    (show monthIdx (dayOf t) < monthIdx (dayOf t) + k by omega)
  have ht : dayOf t * msPerDay + todOf t = t := by unfold dayOf todOf msPerDay; omega
  unfold jsGetDate
  unfold msPerDay at *
  omega

theorem addTime_years_gt (t k : Int) (hk : 1 ≤ k) : t < addTime t k .years := by
  show t < jsSetFullYear t (jsGetFullYear t + k)
  rw [jsSetFullYear_day]
  have hsplit := monthStart_day_split (dayOf t)
  have hmono := monthStartDays_strictMono
    (show monthIdx (dayOf t) < monthIdx (dayOf t) + 12 * k by omega)
  have ht : dayOf t * msPerDay + todOf t = t := by unfold dayOf todOf msPerDay; omega
  unfold jsGetDate
  unfold msPerDay at *
  omega

theorem setMonth_setDate_gt (t k dom : Int) (hk : 1 ≤ k) (hdom : 1 ≤ dom) :
    t < jsSetDate (jsSetMonth t (jsGetMonth t + k)) dom := by
  rw [jsSetMonth_day]
  have htod := todOf_bounds t
  have hdd := civil_d_ge_one (dayOf t)
  have hmk := @dayOf_of_mk (monthStartDays (monthIdx (dayOf t) + k) + (jsGetDate t - 1))
    (todOf t) htod.1 htod.2
  unfold jsSetDate
  dsimp only
  rw [hmk.1, hmk.2]
  set z1 := monthStartDays (monthIdx (dayOf t) + k) + (jsGetDate t - 1) with hz1
  have hsplit1 := monthStart_day_split z1
  rw [monthStartDays_monthIdx] at hsplit1
  have hBz1 := lt_monthStart_succ z1
  have hd1 := civil_d_ge_one z1
  have hq : dayOf t < daysFromCivil (civilFromDays z1).1 (civilFromDays z1).2.1 1 := by
    have hB := lt_monthStart_succ (dayOf t)
    have hk1 : monthStartDays (monthIdx (dayOf t) + 1) ≤ monthStartDays (monthIdx (dayOf t) + k) :=
      monthStartDays_strictMono.monotone (by omega)
    have hz1ge : monthStartDays (monthIdx (dayOf t) + 1) ≤ z1 := by
      rw [hz1]
      unfold jsGetDate
      omega
    by_cases hcmp : monthIdx (dayOf t) + 1 ≤ monthIdx z1
    · have h5 := monthStartDays_strictMono.monotone hcmp
      rw [monthStartDays_monthIdx] at h5
      omega
    · exfalso
      have hle : monthIdx z1 + 1 ≤ monthIdx (dayOf t) + 1 := by omega
      have h5 := monthStartDays_strictMono.monotone hle
      omega
  have ht : dayOf t * msPerDay + todOf t = t := by unfold dayOf todOf msPerDay; omega
  unfold msPerDay at *
  omega

/-! ## Strict advance of recurrence steps -/

theorem intervalOr1_pos (p : RecurringPattern) (h : intervalNonneg p = true) :
    1 ≤ intervalOr1 p := by
  unfold intervalNonneg at h
  unfold intervalOr1 jsOrInt
  cases hp : p.interval with
  | none => norm_num
  | some n =>
    rw [hp] at h
    simp only [decide_eq_true_eq] at h
    dsimp only
    split_ifs <;> omega

theorem addTime_days_gt (t n : Int) (hn : 1 ≤ n) : t < addTime t n .days := by
  rw [addTime_days_eq]
  unfold msPerDay
  omega

theorem findNextWeekdayGo_gt (days : List Int) :
    ∀ fuel c next, findNextWeekdayGo days fuel c = some next → c < next := by
  intro fuel
  induction fuel with
  | zero => intro c next h; simp [findNextWeekdayGo] at h
  | succ k ih =>
    intro c next h
    unfold findNextWeekdayGo at h
    dsimp only at h
    have hstep : c < addTime c 1 .days := addTime_days_gt c 1 (le_refl 1)
    by_cases hc : days.contains (getDay (addTime c 1 .days)) = true
    · rw [if_pos hc] at h
      have : addTime c 1 .days = next := by injection h
      omega
    · rw [if_neg hc] at h
      have := ih (addTime c 1 .days) next h
      omega

theorem advanceOccurrence_gt {p : RecurringPattern} {c next : Int}
    (hint : intervalNonneg p = true) (hdom : dayOfMonthNonneg p = true)
    (h : advanceOccurrence p c = some next) : c < next := by
  have hiv := intervalOr1_pos p hint
  obtain ⟨freq, iv, dow, dm, ed, occ⟩ := p
  unfold advanceOccurrence at h
  cases freq
  case DAILY =>
    dsimp only at h
    have he : addTime c (intervalOr1 ⟨.DAILY, iv, dow, dm, ed, occ⟩) .days = next := by
      injection h
    have := addTime_days_gt c _ hiv
    omega
  case WEEKLY =>
    dsimp only at h
    cases dow with
    | none =>
      dsimp only at h
      have he : addTime c (intervalOr1 ⟨.WEEKLY, iv, none, dm, ed, occ⟩ * 7) .days = next := by
        injection h
      have := addTime_days_gt c _ (by omega : 1 ≤ intervalOr1 ⟨.WEEKLY, iv, none, dm, ed, occ⟩ * 7)
      omega
    | some days =>
      dsimp only at h
      by_cases hl : 0 < days.length
      · rw [if_pos hl] at h
        exact findNextWeekdayGo_gt days 7 c next h
      · rw [if_neg hl] at h
        have he : addTime c (intervalOr1 ⟨.WEEKLY, iv, some days, dm, ed, occ⟩ * 7) .days = next := by
          injection h
        have := addTime_days_gt c _
          (by omega : 1 ≤ intervalOr1 ⟨.WEEKLY, iv, some days, dm, ed, occ⟩ * 7)
        omega
  case MONTHLY =>
    dsimp only at h
    cases dm with
    | none =>
      dsimp only at h
      have he : addTime c (intervalOr1 ⟨.MONTHLY, iv, dow, none, ed, occ⟩) .months = next := by
        injection h
      have := addTime_months_gt c _ hiv
      omega
    | some dom =>
      dsimp only at h
      by_cases h0 : dom = 0
      · rw [if_pos h0] at h
        have he : addTime c (intervalOr1 ⟨.MONTHLY, iv, dow, some dom, ed, occ⟩) .months = next := by
          injection h
        have := addTime_months_gt c _ hiv
        omega
      · rw [if_neg h0] at h
        have hdnn : 0 ≤ dom := by
          unfold dayOfMonthNonneg at hdom
          simpa using hdom
        have he : jsSetDate (jsSetMonth c (jsGetMonth c
            + intervalOr1 ⟨.MONTHLY, iv, dow, some dom, ed, occ⟩)) dom = next := by
          injection h
        have := setMonth_setDate_gt c _ dom hiv (by omega)
        omega
  case YEARLY =>
    dsimp only at h
    have he : addTime c (intervalOr1 ⟨.YEARLY, iv, dow, dm, ed, occ⟩) .years = next := by
      injection h
    have := addTime_years_gt c _ hiv
    omega

theorem getNextOccurrenceGo_gt {p : RecurringPattern} {afterDate : Int}
    (hint : intervalNonneg p = true) (hdom : dayOfMonthNonneg p = true)
    (startDate : Int) :
    ∀ fuel current count, startDate ≤ current →
      ∀ r, getNextOccurrenceGo p afterDate fuel current count = some r →
        startDate < r := by
  intro fuel
  induction fuel with
  | zero => intro current count _ r h; simp [getNextOccurrenceGo] at h
  | succ k ih =>
    intro current count hle r h
    unfold getNextOccurrenceGo at h
    by_cases h1 : current ≤ afterDate ∨ count = 0
    · rw [if_pos h1] at h
      by_cases h2 : occCapReached p.occurrences count = true
      · rw [if_pos h2] at h
        exact absurd h (by simp)
      · rw [if_neg h2] at h
        cases hadv : advanceOccurrence p current with
        | none => rw [hadv] at h; exact absurd h (by simp)
        | some next =>
          rw [hadv] at h
          dsimp only at h
          have hgt := advanceOccurrence_gt hint hdom hadv
          by_cases h3 : endDateBefore p next = true
          · rw [if_pos h3] at h
            exact absurd h (by simp)
          · rw [if_neg h3] at h
            by_cases h4 : afterDate < next
            · rw [if_pos h4] at h
              have : next = r := by injection h
              omega
            · rw [if_neg h4] at h
              exact ih next (count + 1) (by omega) r h
    · rw [if_neg h1] at h
      exact absurd h (by simp)

/-! ## Properties of `getOccurrencesInRange` -/

theorem getOccurrencesGo_mem (p : RecurringPattern) (rs re : Int) (innerFuel : Nat) :
    ∀ fuel current count d, d ∈ getOccurrencesGo p rs re innerFuel fuel current count →
      rs ≤ d ∧ d ≤ re := by
  intro fuel
  induction fuel with
  | zero => intro c n d h; simp [getOccurrencesGo] at h
  | succ k ih =>
    intro current count d h
    unfold getOccurrencesGo at h
    by_cases h1 : current ≤ re
    · rw [if_pos h1] at h
      by_cases h2 : occCapReached p.occurrences count = true
      · rw [if_pos h2] at h; simp at h
      · rw [if_neg h2] at h
        by_cases h3 : endDateBefore p current = true
        · rw [if_pos h3] at h; simp at h
        · rw [if_neg h3] at h
          dsimp only at h
          have hpush : ∀ x, x ∈ (if rs ≤ current ∧ current ≤ re then [current] else ([] : List Int)) →
              rs ≤ x ∧ x ≤ re := by
            intro x hx
            by_cases h4 : rs ≤ current ∧ current ≤ re
            · rw [if_pos h4] at hx
              simp at hx
              omega
            · rw [if_neg h4] at hx
              simp at hx
          cases hn : getNextOccurrence innerFuel current p current with
          | none =>
            rw [hn] at h
            exact hpush d h
          | some next =>
            rw [hn] at h
            dsimp only at h
            by_cases h5 : next ≤ current
            · rw [if_pos h5] at h
              exact hpush d h
            · rw [if_neg h5] at h
              rw [List.mem_append] at h
              rcases h with h | h
              · exact hpush d h
              · exact ih next (count + 1) d h
    · rw [if_neg h1] at h
      simp at h

theorem getOccurrencesGo_length (p : RecurringPattern) (rs re : Int) (innerFuel : Nat)
    {n : Int} (hocc : p.occurrences = some n) (hn : 0 < n) :
    ∀ (fuel : Nat) (current : Int) (count : Nat), (count : Int) ≤ n →
      ((getOccurrencesGo p rs re innerFuel fuel current count).length : Int)
        ≤ n - count := by
  intro fuel
  induction fuel with
  | zero => intro current count hc; simp [getOccurrencesGo]; omega
  | succ k ih =>
    intro current count hc
    unfold getOccurrencesGo
    by_cases h1 : current ≤ re
    · rw [if_pos h1]
      by_cases h2 : occCapReached p.occurrences count = true
      · rw [if_pos h2]; simp only [List.length_nil, Int.natCast_zero]; omega
      · rw [if_neg h2]
        have hcnt : (count : Int) < n := by
          by_contra hge
          apply h2
          unfold occCapReached
          rw [hocc]
          simp only [Bool.and_eq_true, Bool.not_eq_true']
          constructor
          · simp only [beq_eq_false_iff_ne, ne_eq]
            omega
          · simp only [decide_eq_true_eq]
            omega
        by_cases h3 : endDateBefore p current = true
        · rw [if_pos h3]; simp only [List.length_nil, Int.natCast_zero]; omega
        · rw [if_neg h3]
          dsimp only
          have hpushlen1 :
              ((if rs ≤ current ∧ current ≤ re then [current] else ([] : List Int))).length ≤ 1 := by
            by_cases h4 : rs ≤ current ∧ current ≤ re
            · rw [if_pos h4]; simp
            · rw [if_neg h4]; simp
          cases hnx : getNextOccurrence innerFuel current p current with
          | none =>
            dsimp only
            omega
          | some next =>
            dsimp only
            by_cases h5 : next ≤ current
            · rw [if_pos h5]
              omega
            · rw [if_neg h5]
              have hrec := ih next (count + 1) (by push_cast; omega)
              rw [List.length_append]
              push_cast at hrec ⊢
              omega
    · rw [if_neg h1]; simp only [List.length_nil, Int.natCast_zero]; omega

theorem getDay_shift (t n : Int) : getDay (t + n * msPerDay) = (getDay t + n) % 7 := by
  unfold getDay dayOf msPerDay
  omega

theorem cacheLookup_eraseKey {α : Type} (c : MemoryCache α) (k : String) :
    cacheLookup (cacheEraseKey c k) k = none := by
  induction c with
  | nil => rfl
  | cons kv rest ih =>
    unfold cacheEraseKey at *
    by_cases h : kv.1 = k
    · rw [List.filter_cons_of_neg (by simp [h])]
      exact ih
    · rw [List.filter_cons_of_pos (by simp [h])]
      unfold cacheLookup
      rw [if_neg h]
      exact ih

/-- C10 (amended): a non-null result of `getNextOccurrence` is strictly later
than the anchor start date, provided the pattern's `interval` and
`dayOfMonth` (where present) are nonnegative — as they are for every pattern
the repository itself constructs.  With a negative `interval` the walk can
move backwards (see the counterexample), so the original unconditional claim
fails. -/
theorem getNextOccurrence_result_after_start
    (fuel : Nat) (startDate : Int) (p : RecurringPattern) (afterDate r : Int)
    (hint : intervalNonneg p = true) (hdom : dayOfMonthNonneg p = true)
    (h : getNextOccurrence fuel startDate p afterDate = some r) :
    startDate < r := by
  unfold getNextOccurrence at h
  by_cases h1 : endDateBefore p afterDate = true
  · rw [if_pos h1] at h
    exact absurd h (by simp)
  · rw [if_neg h1] at h
    exact getNextOccurrenceGo_gt hint hdom startDate fuel startDate 0 (le_refl _) r h

/-- Witness for C10 at a concrete daily pattern. -/
theorem getNextOccurrence_result_after_start_witness :
    (0 : Int) < 86400000 :=
  getNextOccurrence_result_after_start 5 0
    ⟨.DAILY, some 1, none, none, none, none⟩ 0 86400000 (by decide) (by decide)
    (by decide)

/-- C10 counterexample: with `interval = -1` (allowed by the declared
`interval?: number` type) the code returns an occurrence strictly before the
anchor: anchored at day 10 with threshold day 0, it returns day 9. -/
theorem getNextOccurrence_negative_interval_before_start :
    getNextOccurrence 5 864000000 ⟨.DAILY, some (-1), none, none, none, none⟩ 0
        = some 777600000 ∧
    ¬((864000000 : Int) < 777600000) := by
  constructor
  · decide
  · decide

/-- C5 (amended): every instant returned by `getOccurrencesInRange` lies
within the queried closed interval `[rangeStart, rangeEnd]`, and when
`pattern.occurrences` is set to a positive value the length of the returned
list never exceeds it.  (An `occurrences` value of `0` is falsy in JS, so the
code ignores that cap — see the counterexample — hence the positivity
proviso.) -/
theorem getOccurrencesInRange_range_and_cap
    (fuel : Nat) (startDate : Int) (p : RecurringPattern) (rs re : Int) :
    (∀ d ∈ getOccurrencesInRange fuel startDate p rs re, rs ≤ d ∧ d ≤ re) ∧
    (∀ n : Int, p.occurrences = some n → 0 < n →
      ((getOccurrencesInRange fuel startDate p rs re).length : Int) ≤ n) := by
  unfold getOccurrencesInRange
  by_cases h1 : re < startDate
  · rw [if_pos h1]
    constructor
    · intro d hd
      simp at hd
    · intro n _ hn
      simp
      omega
  · rw [if_neg h1]
    by_cases h2 : (match p.endDate with | some e => decide (e < rs) | none => false) = true
    · rw [if_pos h2]
      constructor
      · intro d hd
        simp at hd
      · intro n _ hn
        simp
        omega
    · rw [if_neg h2]
      dsimp only
      constructor
      · intro d hd
        exact getOccurrencesGo_mem p rs re fuel fuel _ 0 d hd
      · intro n hocc hn
        have := getOccurrencesGo_length p rs re fuel hocc hn fuel
          (if startDate < rs then (getNextOccurrence fuel startDate p rs).getD startDate
           else startDate) 0 (by omega)
        push_cast at this ⊢
        omega

/-- Witness for C5 at a concrete daily pattern with a cap of 2. -/
theorem getOccurrencesInRange_range_and_cap_witness :
    ((getOccurrencesInRange 10 0 ⟨.DAILY, some 1, none, none, none, some 2⟩
        0 864000000).length : Int) ≤ 2 :=
  (getOccurrencesInRange_range_and_cap 10 0
    ⟨.DAILY, some 1, none, none, none, some 2⟩ 0 864000000).2 2 rfl (by norm_num)

/-- C5 counterexample: with `occurrences = 0` — a set value — the JS truthiness
check `pattern.occurrences && …` skips the cap entirely and the function
returns four occurrences, exceeding the cap of zero. -/
theorem getOccurrencesInRange_zero_occurrences_cap_ignored :
    (⟨.DAILY, some 1, none, none, none, some 0⟩ : RecurringPattern).occurrences
        = some 0 ∧
    getOccurrencesInRange 20 0 ⟨.DAILY, some 1, none, none, none, some 0⟩ 0 259200000
        = [0, 86400000, 172800000, 259200000] ∧
    ¬(((getOccurrencesInRange 20 0 ⟨.DAILY, some 1, none, none, none, some 0⟩
        0 259200000).length : Int) ≤ 0) := by
  refine ⟨rfl, by decide, by decide⟩

/-- C7: a `set(k, v, ttl)` with positive `ttl` immediately followed by `get(k)`
returns exactly `v`; and once the entry's age strictly exceeds its TTL, a
`get(k)` deletes the entry and returns absent. -/
theorem cache_roundtrip_and_expiry {α : Type} (c : MemoryCache α) (k : String)
    (v : α) (ttl now now2 : Int) (httl : 0 < ttl) :
    (cacheGet (cacheSet c k v (some ttl) now) k now).1 = some v ∧
    (now + ttl * 1000 < now2 →
      (cacheGet (cacheSet c k v (some ttl) now) k now2).1 = none ∧
      cacheLookup (cacheGet (cacheSet c k v (some ttl) now) k now2).2 k = none) := by
  have hset : cacheSet c k v (some ttl) now
      = (k, ⟨v, now, ttl * 1000⟩) :: cacheEraseKey c k := by
    unfold cacheSet jsOrInt
    dsimp only
    rw [if_neg (by omega : ¬ttl = 0)]
  have hlk : cacheLookup (cacheSet c k v (some ttl) now) k
      = some ⟨v, now, ttl * 1000⟩ := by
    rw [hset]
    unfold cacheLookup
    rw [if_pos rfl]
  constructor
  · unfold cacheGet
    rw [hlk]
    dsimp only
    rw [if_neg (by omega : ¬(now + ttl * 1000 < now))]
  · intro hexp
    unfold cacheGet
    rw [hlk]
    dsimp only
    rw [if_pos (by omega : now + ttl * 1000 < now2)]
    refine ⟨rfl, ?_⟩
    dsimp only
    rw [hset]
    unfold cacheEraseKey
    rw [List.filter_cons_of_neg (by simp)]
    exact cacheLookup_eraseKey (cacheEraseKey c k) k

/-- Witness for C7 at a concrete cache. -/
theorem cache_roundtrip_and_expiry_witness :
    (cacheGet (cacheSet (cacheEmpty Nat) "k" 42 (some 10) 0) "k" 0).1 = some 42 ∧
    (cacheGet (cacheSet (cacheEmpty Nat) "k" 42 (some 10) 0) "k" 10001).1 = none := by
  have h := cache_roundtrip_and_expiry (cacheEmpty Nat) "k" 42 10 0 10001 (by norm_num)
  exact ⟨h.1, (h.2 (by norm_num)).1⟩

/-- C6 (amended): for a weekly pattern with `daysOfWeek = [1]` anchored on a
Monday, `getNextOccurrence` with threshold equal to the anchor returns the
instant exactly 7 days later and never the anchor itself — provided the
pattern's `endDate`, when set, is no earlier than 7 days after the anchor,
and `occurrences`, when set, is nonnegative.  (A pattern whose `endDate`
falls before the computed next Monday makes the function return `null`
instead — see the counterexample — hence the proviso.) -/
theorem getNextOccurrence_weekly_monday (fuel : Nat) (anchor : Int)
    (p : RecurringPattern)
    (hf : p.frequency = .WEEKLY) (hd : p.daysOfWeek = some [1])
    (hday : getDay anchor = 1)
    (hend : ∀ e, p.endDate = some e → anchor + 7 * msPerDay ≤ e)
    (hocc : ∀ n, p.occurrences = some n → 0 ≤ n)
    (hfuel : 1 ≤ fuel) :
    getNextOccurrence fuel anchor p anchor = some (anchor + 7 * msPerDay) ∧
    anchor + 7 * msPerDay ≠ anchor := by
  obtain ⟨k, rfl⟩ : ∃ k, fuel = k + 1 := ⟨fuel - 1, by omega⟩
  have hgd : ∀ i : Int, getDay (anchor + i * msPerDay) = (1 + i) % 7 := by
    intro i
    rw [getDay_shift, hday]
  have hstep : ∀ i j : Int, i + 1 = j →
      addTime (anchor + i * msPerDay) 1 .days = anchor + j * msPerDay := by
    intro i j hij
    rw [addTime_days_eq]
    rw [← hij]
    ring
  have hstep0 : addTime anchor 1 .days = anchor + 1 * msPerDay := by
    have := addTime_days_eq anchor 1
    rw [this]
  have hcF : ∀ i : Int, (1 + i) % 7 ≠ 1 →
      (([1] : List Int).contains (getDay (anchor + i * msPerDay))) = false := by
    intro i hi
    rw [hgd]
    have h1 : (((1 + i) % 7 : Int) == 1) = false := by
      rw [beq_eq_false_iff_ne]
      exact hi
    simp [List.contains_cons, List.contains_nil, h1]
    exact hi
  have hc7 : (([1] : List Int).contains (getDay (anchor + 7 * msPerDay))) = true := by
    rw [hgd]
    norm_num
  have w1 : findNextWeekdayGo [1] 1 (anchor + 6 * msPerDay) = some (anchor + 7 * msPerDay) := by
    show (if ([1] : List Int).contains (getDay (addTime (anchor + 6 * msPerDay) 1 .days)) = true
        then some (addTime (anchor + 6 * msPerDay) 1 .days)
        else findNextWeekdayGo [1] 0 (addTime (anchor + 6 * msPerDay) 1 .days))
      = some (anchor + 7 * msPerDay)
    rw [hstep 6 7 (by norm_num), hc7, if_pos rfl]
  have w2 : findNextWeekdayGo [1] 2 (anchor + 5 * msPerDay) = some (anchor + 7 * msPerDay) := by
    show (if ([1] : List Int).contains (getDay (addTime (anchor + 5 * msPerDay) 1 .days)) = true
        then some (addTime (anchor + 5 * msPerDay) 1 .days)
        else findNextWeekdayGo [1] 1 (addTime (anchor + 5 * msPerDay) 1 .days))
      = some (anchor + 7 * msPerDay)
    rw [hstep 5 6 (by norm_num), hcF 6 (by norm_num)]
    simp only [Bool.false_eq_true, if_false]
    exact w1
  have w3 : findNextWeekdayGo [1] 3 (anchor + 4 * msPerDay) = some (anchor + 7 * msPerDay) := by
    show (if ([1] : List Int).contains (getDay (addTime (anchor + 4 * msPerDay) 1 .days)) = true
        then some (addTime (anchor + 4 * msPerDay) 1 .days)
        else findNextWeekdayGo [1] 2 (addTime (anchor + 4 * msPerDay) 1 .days))
      = some (anchor + 7 * msPerDay)
    rw [hstep 4 5 (by norm_num), hcF 5 (by norm_num)]
    simp only [Bool.false_eq_true, if_false]
    exact w2
  have w4 : findNextWeekdayGo [1] 4 (anchor + 3 * msPerDay) = some (anchor + 7 * msPerDay) := by
    show (if ([1] : List Int).contains (getDay (addTime (anchor + 3 * msPerDay) 1 .days)) = true
        then some (addTime (anchor + 3 * msPerDay) 1 .days)
        else findNextWeekdayGo [1] 3 (addTime (anchor + 3 * msPerDay) 1 .days))
      = some (anchor + 7 * msPerDay)
    rw [hstep 3 4 (by norm_num), hcF 4 (by norm_num)]
    simp only [Bool.false_eq_true, if_false]
    exact w3
  have w5 : findNextWeekdayGo [1] 5 (anchor + 2 * msPerDay) = some (anchor + 7 * msPerDay) := by
    show (if ([1] : List Int).contains (getDay (addTime (anchor + 2 * msPerDay) 1 .days)) = true
        then some (addTime (anchor + 2 * msPerDay) 1 .days)
        else findNextWeekdayGo [1] 4 (addTime (anchor + 2 * msPerDay) 1 .days))
      = some (anchor + 7 * msPerDay)
    rw [hstep 2 3 (by norm_num), hcF 3 (by norm_num)]
    simp only [Bool.false_eq_true, if_false]
    exact w4
  have w6 : findNextWeekdayGo [1] 6 (anchor + 1 * msPerDay) = some (anchor + 7 * msPerDay) := by
    show (if ([1] : List Int).contains (getDay (addTime (anchor + 1 * msPerDay) 1 .days)) = true
        then some (addTime (anchor + 1 * msPerDay) 1 .days)
        else findNextWeekdayGo [1] 5 (addTime (anchor + 1 * msPerDay) 1 .days))
      = some (anchor + 7 * msPerDay)
    rw [hstep 1 2 (by norm_num), hcF 2 (by norm_num)]
    simp only [Bool.false_eq_true, if_false]
    exact w5
  have hweek : findNextWeekdayGo [1] 7 anchor = some (anchor + 7 * msPerDay) := by
    show (if ([1] : List Int).contains (getDay (addTime anchor 1 .days)) = true
        then some (addTime anchor 1 .days)
        else findNextWeekdayGo [1] 6 (addTime anchor 1 .days))
      = some (anchor + 7 * msPerDay)
    rw [hstep0, hcF 1 (by norm_num)]
    simp only [Bool.false_eq_true, if_false]
    exact w6
  have hED : endDateBefore p anchor = false := by
    unfold endDateBefore
    cases he : p.endDate with
    | none => rfl
    | some e =>
      have := hend e he
      simp only [decide_eq_false_iff_not]
      unfold msPerDay at this
      omega
  have hED7 : endDateBefore p (anchor + 7 * msPerDay) = false := by
    unfold endDateBefore
    cases he : p.endDate with
    | none => rfl
    | some e =>
      have := hend e he
      simp only [decide_eq_false_iff_not]
      omega
  have hOC : occCapReached p.occurrences 0 = false := by
    unfold occCapReached
    cases ho : p.occurrences with
    | none => rfl
    | some n =>
      have := hocc n ho
      by_cases hn0 : n = 0
      · subst hn0
        simp
      · have hle : ¬(n ≤ ((0 : Nat) : Int)) := by push_cast; omega
        simp [hle]
        omega
  have hadv : advanceOccurrence p anchor = some (anchor + 7 * msPerDay) := by
    unfold advanceOccurrence
    rw [hf, hd]
    dsimp only
    rw [if_pos (by norm_num : 0 < ([1] : List Int).length)]
    exact hweek
  constructor
  · unfold getNextOccurrence
    rw [hED]
    simp only [Bool.false_eq_true, if_false]
    unfold getNextOccurrenceGo
    rw [if_pos (Or.inr rfl)]
    rw [hOC]
    simp only [Bool.false_eq_true, if_false]
    rw [hadv]
    dsimp only
    rw [hED7]
    simp only [Bool.false_eq_true, if_false]
    rw [if_pos (by unfold msPerDay; omega : anchor < anchor + 7 * msPerDay)]
  · unfold msPerDay
    omega

/-- Witness for C6 at the Monday 2024-01-01 anchor. -/
theorem getNextOccurrence_weekly_monday_witness :
    getNextOccurrence 3 1704067200000
        ⟨.WEEKLY, some 1, some [1], none, none, none⟩ 1704067200000
      = some (1704067200000 + 7 * msPerDay) ∧
    (1704067200000 : Int) + 7 * msPerDay ≠ 1704067200000 :=
  getNextOccurrence_weekly_monday 3 1704067200000
    ⟨.WEEKLY, some 1, some [1], none, none, none⟩ rfl rfl (by decide)
    (by intro e he; cases he) (by intro n hn; cases hn) (by norm_num)

/-- C6 counterexample: the same weekly Monday pattern with an `endDate` equal
to the anchor makes `getNextOccurrence` return `null` rather than the
instant 7 days after the anchor, so the original unconditional claim fails. -/
theorem getNextOccurrence_weekly_monday_endDate_null :
    getDay 1704067200000 = 1 ∧
    getNextOccurrence 10 1704067200000
        ⟨.WEEKLY, some 1, some [1], none, some 1704067200000, none⟩ 1704067200000
      = none := by
  constructor
  · decide
  · decide
/-! ## Helper lemmas about the NLP service -/

theorem digitsToInt_foldl_nonneg (l : List Char) :
    ∀ acc : Int, 0 ≤ acc →
      0 ≤ l.foldl (fun acc c => acc * 10 + ((c.toNat - 48 : Nat) : Int)) acc := by
  induction l with
  | nil => intro acc h; simpa using h
  | cons c t ih =>
    intro acc h
    rw [List.foldl_cons]
    refine ih _ ?_
    show 0 ≤ acc * 10 + ((c.toNat - 48 : Nat) : Int)
    have hc : (0 : Int) ≤ ((c.toNat - 48 : Nat) : Int) := Int.natCast_nonneg _
    omega

theorem digitsToInt_nonneg (l : List Char) : 0 ≤ digitsToInt l :=
  digitsToInt_foldl_nonneg l 0 le_rfl

theorem validateAndTransform_originalText (resp : AIResponse) (input : String) :
    (validateAndTransformAIResponse resp input).originalText = input := rfl

theorem fallbackParse_originalText (now : Int) (input : String) :
    (fallbackParse now input).originalText = input := rfl

/-- If every attempt fails and no failure is a non-retriable client error,
the retry loop exhausts its budget and propagates the error (`none`). -/
theorem parseWithAIGo_fail (now : Int) (attempts : Nat → AIOutcome) (input : String)
    (hok : ∀ n r, attempts n ≠ AIOutcome.ok r)
    (hcl : ∀ n, isClientErrNon429 (attempts n) = false) :
    ∀ (fuel attempt : Nat) (reset : Int),
      (parseWithAIGo now attempts input fuel attempt reset).1 = none := by
  intro fuel
  induction fuel with
  | zero => intro attempt reset; rfl
  | succ fuel ih =>
    intro attempt reset
    unfold parseWithAIGo
    cases h : attempts attempt with
    | ok r => exact absurd h (hok attempt r)
    | emptyContent =>
      dsimp only
      have h2 := hcl attempt
      rw [h] at h2
      rw [h2]
      simp only [Bool.false_eq_true, if_false]
      by_cases hlt : attempt < maxRetries
      · rw [if_pos hlt]; exact ih (attempt + 1) _
      · rw [if_neg hlt]
    | badJson =>
      dsimp only
      have h2 := hcl attempt
      rw [h] at h2
      rw [h2]
      simp only [Bool.false_eq_true, if_false]
      by_cases hlt : attempt < maxRetries
      · rw [if_pos hlt]; exact ih (attempt + 1) _
      · rw [if_neg hlt]
    | httpErr st ra =>
      dsimp only
      have h2 := hcl attempt
      rw [h] at h2
      rw [h2]
      simp only [Bool.false_eq_true, if_false]
      by_cases hlt : attempt < maxRetries
      · rw [if_pos hlt]; exact ih (attempt + 1) _
      · rw [if_neg hlt]
    | netErr =>
      dsimp only
      have h2 := hcl attempt
      rw [h] at h2
      rw [h2]
      simp only [Bool.false_eq_true, if_false]
      by_cases hlt : attempt < maxRetries
      · rw [if_pos hlt]; exact ih (attempt + 1) _
      · rw [if_neg hlt]

/-- Any command the retry loop returns successfully carries the verbatim
input as its `originalText`. -/
theorem parseWithAIGo_ok_originalText (now : Int) (attempts : Nat → AIOutcome)
    (input : String) :
    ∀ (fuel attempt : Nat) (reset : Int) (cmd : ParsedCommand) (reset2 : Int),
      parseWithAIGo now attempts input fuel attempt reset = (some cmd, reset2) →
      cmd.originalText = input := by
  intro fuel
  induction fuel with
  | zero =>
    intro attempt reset cmd reset2 h
    exact absurd (congrArg Prod.fst h) (by simp [parseWithAIGo])
  | succ fuel ih =>
    intro attempt reset cmd reset2 h
    unfold parseWithAIGo at h
    cases ho : attempts attempt with
    | ok r =>
      rw [ho] at h
      dsimp only at h
      have := congrArg Prod.fst h
      dsimp only at this
      have hcmd : some (validateAndTransformAIResponse r input) = some cmd := this
      injection hcmd with hcmd
      rw [← hcmd]
      rfl
    | emptyContent =>
      rw [ho] at h
      dsimp only at h
      split at h
      · exact absurd (congrArg Prod.fst h) (by simp)
      · split at h
        · exact ih _ _ _ _ h
        · exact absurd (congrArg Prod.fst h) (by simp)
    | badJson =>
      rw [ho] at h
      dsimp only at h
      split at h
      · exact absurd (congrArg Prod.fst h) (by simp)
      · split at h
        · exact ih _ _ _ _ h
        · exact absurd (congrArg Prod.fst h) (by simp)
    | httpErr st ra =>
      rw [ho] at h
      dsimp only at h
      split at h
      · exact absurd (congrArg Prod.fst h) (by simp)
      · split at h
        · exact ih _ _ _ _ h
        · exact absurd (congrArg Prod.fst h) (by simp)
    | netErr =>
      rw [ho] at h
      dsimp only at h
      split at h
      · exact absurd (congrArg Prod.fst h) (by simp)
      · split at h
        · exact ih _ _ _ _ h
        · exact absurd (congrArg Prod.fst h) (by simp)

/-! ## Claims C1 to C4, C8, C9 -/

/-- C1: with the remote client configured, a cache miss, and every remote
attempt failing with a retriable error (never a successful response, never a
non-429 4xx), `parseCommand` still resolves, and its result is exactly the
local fallback parse of the input. -/
theorem parseCommand_total_failure_fallback
    (cfg : NLPConfig) (attempts : Nat → AIOutcome) (now : Int) (st : NLPState)
    (input : String)
    (hkey : cfg.apiKeyPresent = true)
    (hok : ∀ n r, attempts n ≠ AIOutcome.ok r)
    (hcl : ∀ n, isClientErrNon429 (attempts n) = false)
    (hmiss : (cacheGet st.cacheStore ("nlp:" ++ jsTrim (jsToLower input)) now).1 = none) :
    (parseCommand cfg attempts now st input).1 = fallbackParse now input := by
  unfold parseCommand
  dsimp only
  have he : cacheGet st.cacheStore ("nlp:" ++ jsTrim (jsToLower input)) now
      = (none, (cacheGet st.cacheStore ("nlp:" ++ jsTrim (jsToLower input)) now).2) := by
    conv_lhs => rw [← @Prod.mk.eta _ _ (cacheGet st.cacheStore ("nlp:" ++ jsTrim (jsToLower input)) now)]
    rw [hmiss]
  rw [he]
  dsimp only
  by_cases hrl : now < st.rateLimitReset
  · rw [if_pos hrl]
  · rw [if_neg hrl, hkey]
    rw [if_pos rfl]
    have hfail := parseWithAIGo_fail now attempts input hok hcl maxRetries 1 st.rateLimitReset
    have hp : parseWithAI now attempts input st.rateLimitReset
        = (none, (parseWithAI now attempts input st.rateLimitReset).2) := by
      conv_lhs => rw [← @Prod.mk.eta _ _ (parseWithAI now attempts input st.rateLimitReset)]
      rw [show (parseWithAI now attempts input st.rateLimitReset).1 = none from hfail]
    rw [hp]

theorem parseCommand_total_failure_fallback_witness :
    (⟨true⟩ : NLPConfig).apiKeyPresent = true ∧
    (∀ (n : Nat) (r : AIResponse), (fun _ : Nat => AIOutcome.netErr) n ≠ AIOutcome.ok r) ∧
    (∀ n : Nat, isClientErrNon429 ((fun _ : Nat => AIOutcome.netErr) n) = false) ∧
    (cacheGet (([] : MemoryCache ParsedCommand)) ("nlp:" ++ jsTrim (jsToLower "hello")) 0).1 = none ∧
    (parseCommand ⟨true⟩ (fun _ => AIOutcome.netErr) 0 ⟨0, []⟩ "hello").1
      = fallbackParse 0 "hello" :=
  ⟨rfl, fun _ _ h => AIOutcome.noConfusion h, fun _ => rfl, rfl,
    parseCommand_total_failure_fallback ⟨true⟩ (fun _ => AIOutcome.netErr) 0 ⟨0, []⟩
      "hello" rfl (fun _ _ h => AIOutcome.noConfusion h) (fun _ => rfl) rfl⟩

set_option maxRecDepth 2000000 in
/-- C2: actual behaviour of the scenario.  `parseCommand` on
`Schedule a meeting with John tomorrow at 2pm` (no remote credential, empty
cache, reference instant 2024-01-01T00:00 local) yields intent CREATE_EVENT,
dateTime the next day at 14:00 local, duration 60 and confidence 0.6 as the
spec says, but `entities.attendees` is absent: the with-clause regex
greedily captures `John tomorrow`, which the date-word filter then discards,
so the claimed `["John"]` is never produced. -/
theorem parseCommand_schedule_meeting_trace :
    (parseCommand ⟨false⟩ (fun _ => AIOutcome.netErr) 1704067200000 ⟨0, []⟩
        "Schedule a meeting with John tomorrow at 2pm").1.intent
      = CommandIntent.CREATE_EVENT ∧
    (parseCommand ⟨false⟩ (fun _ => AIOutcome.netErr) 1704067200000 ⟨0, []⟩
        "Schedule a meeting with John tomorrow at 2pm").1.entities.dateTime
      = some 1704204000000 ∧
    (parseCommand ⟨false⟩ (fun _ => AIOutcome.netErr) 1704067200000 ⟨0, []⟩
        "Schedule a meeting with John tomorrow at 2pm").1.entities.duration
      = some 60 ∧
    (parseCommand ⟨false⟩ (fun _ => AIOutcome.netErr) 1704067200000 ⟨0, []⟩
        "Schedule a meeting with John tomorrow at 2pm").1.entities.attendees
      = none ∧
    (parseCommand ⟨false⟩ (fun _ => AIOutcome.netErr) 1704067200000 ⟨0, []⟩
        "Schedule a meeting with John tomorrow at 2pm").1.confidence = 6/10 ∧
    (parseCommand ⟨false⟩ (fun _ => AIOutcome.netErr) 1704067200000 ⟨0, []⟩
        "Schedule a meeting with John tomorrow at 2pm").1.originalText
      = "Schedule a meeting with John tomorrow at 2pm" := by
  refine ⟨by decide, by decide, by decide, by decide, ?_, by decide⟩
  show (fallbackParse 1704067200000 "Schedule a meeting with John tomorrow at 2pm").confidence
      = 6/10
  unfold fallbackParse
  dsimp only
  rw [show detectIntent (jsTrim (jsToLower "Schedule a meeting with John tomorrow at 2pm"))
      = CommandIntent.CREATE_EVENT from by decide]
  simp

set_option maxRecDepth 2000000 in
/-- C3 counterexample: a text with both an until-clause and a
for-N-times-clause yields a pattern with `endDate` and `occurrences` both
present, refuting their claimed mutual exclusion. -/
theorem extractRecurringPattern_until_and_occurrences_both_set :
    extractRecurringPattern 1704067200000 "Standup every day until tomorrow for 3 times"
      = some ⟨RecurrenceFrequency.DAILY, some 1, none, none,
          some 1704153600000, some 3⟩ := by
  decide

/-- C3 (amended): the two terminal-condition fields are extracted
independently, each present only if its own clause matched; they are not
mutually exclusive. -/
theorem extractRecurringPattern_terminal_clauses (now : Int) (text : String)
    (p : RecurringPattern) (h : extractRecurringPattern now text = some p) :
    (p.endDate.isSome = true → reTest rexUntil 1 text.data = true) ∧
    (p.occurrences.isSome = true → reTest rexOccurrences 1 text.data = true) := by
  unfold extractRecurringPattern at h
  dsimp only at h
  cases htr : reTest rexRecTrigger 0 text.data with
  | false =>
    rw [htr] at h
    simp only [Bool.not_false, if_true] at h
    exact Option.noConfusion h
  | true =>
    rw [htr] at h
    simp only [Bool.not_true, Bool.false_eq_true, if_false] at h
    injection h with h
    subst h
    constructor
    · intro hx
      dsimp only at hx
      cases hf : reFind rexUntil 1 text.data with
      | none => rw [hf] at hx; simp at hx
      | some m => show (reFind rexUntil 1 text.data).isSome = true; rw [hf]; rfl
    · intro hx
      dsimp only at hx
      cases hf : reFind rexOccurrences 1 text.data with
      | none => rw [hf] at hx; simp at hx
      | some m => show (reFind rexOccurrences 1 text.data).isSome = true; rw [hf]; rfl

set_option maxRecDepth 2000000 in
theorem extractRecurringPattern_terminal_clauses_witness :
    extractRecurringPattern 1704067200000 "weekly until tomorrow"
        = some ⟨RecurrenceFrequency.WEEKLY, some 1, none, none,
            some 1704153600000, none⟩ ∧
    reTest rexUntil 1 "weekly until tomorrow".data = true := by
  have h : extractRecurringPattern 1704067200000 "weekly until tomorrow"
      = some ⟨RecurrenceFrequency.WEEKLY, some 1, none, none,
          some 1704153600000, none⟩ := by decide
  exact ⟨h, (extractRecurringPattern_terminal_clauses 1704067200000
    "weekly until tomorrow" _ h).1 (by decide)⟩

/-- C4 counterexample: `parseCommand` applied to the empty string resolves
normally with the fallback parse instead of rejecting. -/
theorem parseCommand_empty_input_returns :
    (parseCommand ⟨false⟩ (fun _ => AIOutcome.netErr) 1704067200000 ⟨0, []⟩ "").1
      = fallbackParse 1704067200000 "" := rfl

set_option maxRecDepth 2000000 in
/-- C4 (amended): empty input is not a thrown precondition violation: the
facade resolves with intent UNKNOWN, no entities, confidence 0.3 and the
empty `originalText`, and even caches the result under the key `nlp:`. -/
theorem parseCommand_empty_input_resolves :
    (parseCommand ⟨false⟩ (fun _ => AIOutcome.netErr) 1704067200000 ⟨0, []⟩ "").1.intent
      = CommandIntent.UNKNOWN ∧
    (parseCommand ⟨false⟩ (fun _ => AIOutcome.netErr) 1704067200000 ⟨0, []⟩ "").1.entities
      = emptyEntities ∧
    (parseCommand ⟨false⟩ (fun _ => AIOutcome.netErr) 1704067200000 ⟨0, []⟩ "").1.confidence
      = 3/10 ∧
    (parseCommand ⟨false⟩ (fun _ => AIOutcome.netErr) 1704067200000 ⟨0, []⟩ "").1.originalText
      = "" ∧
    cacheLookup (parseCommand ⟨false⟩ (fun _ => AIOutcome.netErr) 1704067200000
        ⟨0, []⟩ "").2.cacheStore "nlp:" ≠ none := by
  refine ⟨by decide, by decide, ?_, by decide, by decide⟩
  show (fallbackParse 1704067200000 "").confidence = 3/10
  unfold fallbackParse
  dsimp only
  rw [show detectIntent (jsTrim (jsToLower "")) = CommandIntent.UNKNOWN from by decide]
  simp

set_option maxRecDepth 2000000 in
/-- C8 counterexample: the clause `every 0 days` puts interval 0 into the
pattern, below the claimed minimum of 1. -/
theorem extractRecurringPattern_interval_zero :
    extractRecurringPattern 1704067200000 "standup every 0 days"
      = some ⟨RecurrenceFrequency.DAILY, some 0, none, none, none, none⟩ := by
  decide

/-- C8 (amended): the interval field is always present and nonnegative — it
is the parsed digits of an `every N unit` clause (which may be 0) and
defaults to 1 — but it is not bounded below by 1. -/
theorem extractRecurringPattern_interval_present_nonneg (now : Int) (text : String)
    (p : RecurringPattern) (h : extractRecurringPattern now text = some p) :
    ∃ n : Int, p.interval = some n ∧ 0 ≤ n := by
  unfold extractRecurringPattern at h
  dsimp only at h
  cases htr : reTest rexRecTrigger 0 text.data with
  | false =>
    rw [htr] at h
    simp only [Bool.not_false, if_true] at h
    exact Option.noConfusion h
  | true =>
    rw [htr] at h
    simp only [Bool.not_true, Bool.false_eq_true, if_false] at h
    injection h with h
    subst h
    dsimp only
    cases hf : reFind rexInterval 1 text.data with
    | none => exact ⟨1, rfl, by norm_num⟩
    | some m => exact ⟨digitsToInt ((capsGet m.caps 1).getD []), rfl, digitsToInt_nonneg _⟩

set_option maxRecDepth 2000000 in
theorem extractRecurringPattern_interval_present_nonneg_witness :
    extractRecurringPattern 1704067200000 "sync every 3 days"
        = some ⟨RecurrenceFrequency.DAILY, some 3, none, none, none, none⟩ ∧
    ∃ n : Int,
      (⟨RecurrenceFrequency.DAILY, some 3, none, none, none, none⟩ :
          RecurringPattern).interval = some n ∧ 0 ≤ n := by
  have h : extractRecurringPattern 1704067200000 "sync every 3 days"
      = some ⟨RecurrenceFrequency.DAILY, some 3, none, none, none, none⟩ := by decide
  exact ⟨h, extractRecurringPattern_interval_present_nonneg 1704067200000
    "sync every 3 days" _ h⟩

set_option maxRecDepth 2000000 in
/-- C9 counterexample: a second call differing only in letter case is served
from the cache and carries the first caller text, not its own verbatim
input. -/
theorem parseCommand_cached_originalText_stale :
    (parseCommand ⟨false⟩ (fun _ => AIOutcome.netErr) 1704067200000
        ((parseCommand ⟨false⟩ (fun _ => AIOutcome.netErr) 1704067200000
          ⟨0, []⟩ "HI BOB").2) "hi bob").1.originalText = "HI BOB" ∧
    ("HI BOB" : String) ≠ "hi bob" := by
  constructor
  · decide
  · decide

/-- C9 (amended): whenever the cache lookup misses, the returned command
carries the verbatim input of the call as `originalText`, on every path of
the facade. -/
theorem parseCommand_originalText_verbatim
    (cfg : NLPConfig) (attempts : Nat → AIOutcome) (now : Int) (st : NLPState)
    (input : String)
    (hmiss : (cacheGet st.cacheStore ("nlp:" ++ jsTrim (jsToLower input)) now).1 = none) :
    (parseCommand cfg attempts now st input).1.originalText = input := by
  unfold parseCommand
  dsimp only
  have he : cacheGet st.cacheStore ("nlp:" ++ jsTrim (jsToLower input)) now
      = (none, (cacheGet st.cacheStore ("nlp:" ++ jsTrim (jsToLower input)) now).2) := by
    conv_lhs => rw [← @Prod.mk.eta _ _ (cacheGet st.cacheStore ("nlp:" ++ jsTrim (jsToLower input)) now)]
    rw [hmiss]
  rw [he]
  dsimp only
  by_cases hrl : now < st.rateLimitReset
  · rw [if_pos hrl]; rfl
  · rw [if_neg hrl]
    cases hkeyb : cfg.apiKeyPresent with
    | false =>
      simp only [Bool.false_eq_true, if_false]
      rfl
    | true =>
      rw [if_pos rfl]
      split
      case _ cmd reset2 heq =>
        dsimp only
        unfold parseWithAI at heq
        exact parseWithAIGo_ok_originalText now attempts input maxRetries 1
          st.rateLimitReset cmd reset2 heq
      case _ reset2 heq => rfl

theorem parseCommand_originalText_verbatim_witness :
    (cacheGet (([] : MemoryCache ParsedCommand)) ("nlp:" ++ jsTrim (jsToLower "Hi Bob")) 5).1
        = none ∧
    (parseCommand ⟨false⟩ (fun _ => AIOutcome.netErr) 5 ⟨0, []⟩ "Hi Bob").1.originalText
      = "Hi Bob" :=
  ⟨rfl, parseCommand_originalText_verbatim ⟨false⟩ (fun _ => AIOutcome.netErr) 5
    ⟨0, []⟩ "Hi Bob" rfl⟩
